import Mathlib

/-!
# OLMoEDroid native inference bridge: `llama_jni.cpp`

A shallow embedding of `app/src/main/cpp/llama_jni.cpp` and theorems about it.

The JNI entry points are modelled as pure functions over an explicit session
state (`g_initialized`, `g_ctx`, `g_model`).  The llama.cpp library is external
to the repository; its entry points are the fields of `Llama` and of
`llama_vocab`, left arbitrary, so every theorem holds for every behaviour of
the library.  Calls whose effects the properties speak about (batch
allocation and release, forward passes, observer notifications, terminator
writes into the 256-byte fragment buffer) are recorded in the `Trace` returned
next to the JNI result.

Conventions.
* `llama_token`, `jint`, `int` are `Int`; sizes, indices and positions are `Nat`.
* C `char` arrays are `List Char`; reading one as a C string stops at the
  first NUL (`cstr`).
* `float` logits are an arbitrary linearly ordered type `L`.
* The mutex is not modelled: every entry point holds it from entry to return,
  so calls are atomic steps on the session state.
* A terminator write is recorded with its index whether or not the index is
  inside the buffer; the text read back is the characters the library stored,
  up to the first NUL.
* The prompt batch may come back with a null `token` array, the case the
  source tests for (line 210).  The single-token batch of an iteration is used
  by the source without a test, and is modelled as obtained.
* The sampling block yields no id when `llama_vocab_n_tokens` is below 1: for a
  negative size the `new[]` of line 263 throws, for size 0 line 276 reads
  outside the candidate array.  The call is then not followed any further
  (`Exit.sampling_fault`).
-/

namespace LlamaJni

/-! ## llama.cpp data types used by the bridge -/

/-- Entry of `llama_token_data_array` (`llama.h`): the field `p` is set to
`0.0f` by the bridge and never read, so it is left out. -/
structure llama_token_data (L : Type) where
  id : Int
  logit : L

/-- The `llama_batch` of `llama.h` restricted to the members the bridge
touches.  `token_allocated` is `false` when the `token` pointer is null. -/
structure llama_batch where
  n_tokens : Nat
  token_allocated : Bool
  token : List Int
  pos : List Nat
  n_seq_id : List Nat
  seq_id : List (List Int)
  logits : List Bool
deriving DecidableEq, Repr

/-- The vocabulary handle (`const llama_vocab*`) with the three library
calls the bridge makes on it.  `llama_token_to_piece tok cap` is the call
`llama_token_to_piece(vocab, tok, text, cap, 0, false)`: it yields the
returned length and the characters the call stored in `text[0..]`. -/
structure llama_vocab where
  llama_vocab_n_tokens : Int
  llama_vocab_eos : Int
  llama_token_to_piece : Int → Nat → Int × List Char

/-- The loaded model (`llama_model*`): the bridge only reads its vocabulary
(`llama_model_get_vocab`). -/
structure llama_model where
  vocab : llama_vocab

/-- The decode context (`llama_context*`): the key/value cache (the
recurrent state) and everything else the library keeps in the context, which
includes the logits of the last forward pass. -/
structure llama_context (KV R : Type) where
  kv : KV
  rest : R

/-- The llama.cpp calls that act on a context. -/
structure Llama (KV R L : Type) where
  /-- The cache contents after `llama_kv_self_clear`. -/
  kv_cleared : KV
  /-- The call `llama_decode(ctx, batch)`: result code and the context after. -/
  llama_decode : llama_context KV R → llama_batch → Int × llama_context KV R
  /-- The call `llama_get_logits(ctx)`: the array read as `logits[j]`. -/
  llama_get_logits : llama_context KV R → Nat → L

/-- The call `llama_kv_self_clear(ctx)`: the cache is emptied, the rest of the
context is untouched. -/
def llama_kv_self_clear {KV R L : Type} (P : Llama KV R L)
    (ctx : llama_context KV R) : llama_context KV R :=
  { ctx with kv := P.kv_cleared }

/-! ## Greedy sampling block (lines 262-283) -/

/-- Lines 263-273: the candidate array, one entry per vocabulary id. -/
def candidates_data {L : Type} (logits : Nat → L) (size : Nat) :
    List (llama_token_data L) :=
  (List.range size).map fun (j : Nat) => { id := Int.ofNat j, logit := logits j }

/-- Line 278-280: one pass of the body of the scan at index `j`. -/
def greedy_step {L : Type} [LinearOrder L] (data : List (llama_token_data L))
    (new_token_id : Int) (j : Nat) : Int :=
  match data[j]?, data[new_token_id.toNat]? with
  | some dj, some dcur => if dj.logit > dcur.logit then dj.id else new_token_id
  | _, _ => new_token_id

/-- Lines 276-281: `new_token_id = data[0].id`, then the scan `j = 1 .. size-1`.
With a zero-length array line 276 reads a slot outside the allocation: the
block yields no defined id, which is `none`. -/
def greedy_select {L : Type} [LinearOrder L] (data : List (llama_token_data L)) :
    Option Int :=
  match data[0]? with
  | none => none
  | some d => some ((List.range' 1 (data.length - 1)).foldl (greedy_step data) d.id)

/-- Lines 262-283 as one function of the logits and `llama_vocab_n_tokens`.
With a negative size the `new[]` of line 263 throws `std::bad_array_new_length`
and the block yields no id, which is `none`. -/
def sample_greedy {L : Type} [LinearOrder L] (logits : Nat → L) (n_vocab : Int) :
    Option Int :=
  if n_vocab < 0 then none else greedy_select (candidates_data logits n_vocab.toNat)

/-! ## C strings and the 256-byte fragment buffer -/

/-- The NUL character. -/
def NUL : Char := Char.ofNat 0

/-- The `sizeof(text)` of `char text[256]` (lines 147 and 292). -/
def text_capacity : Nat := 256

/-- The assignment `text[text_len] = 0` (lines 155 and 295) on the
characters the library stored: the buffer up to and including the terminator. -/
def terminate (text : List Char) (text_len : Nat) : List Char :=
  text.take text_len ++ [NUL]

/-- A `char*` read as a C string (`NewStringUTF(text)`, `response += text`):
the characters before the first NUL. -/
def cstr (text : List Char) : String :=
  String.mk (text.takeWhile fun c => c != NUL)

/-! ## Session state (lines 15-19) and its lifecycle -/

/-- The globals `g_initialized`, `g_ctx`, `g_model`; `none` is `nullptr`. -/
structure Session (KV R : Type) where
  g_initialized : Bool
  g_ctx : Option (llama_context KV R)
  g_model : Option llama_model

/-- The values the globals are defined with. -/
def Session.initial {KV R : Type} : Session KV R :=
  { g_initialized := false, g_ctx := none, g_model := none }

/-- `initModel` (lines 21-95).  `load` is what `llama_model_load_from_file`
returns for the path, `init_from_model` what `llama_init_from_model` returns
for a model.  Yields the JNI result and the session after the call. -/
def initModel {KV R : Type} (load : Option llama_model)
    (init_from_model : llama_model → Option (llama_context KV R))
    (s : Session KV R) : Bool × Session KV R :=
  if s.g_initialized then (true, s)
  else
    let s := { s with g_model := load }
    match s.g_model with
    | none => (false, s)
    | some model =>
      let s := { s with g_ctx := init_from_model model }
      match s.g_ctx with
      | none => (false, { s with g_model := none })
      | some _ => (true, { s with g_initialized := true })

/-- `cleanup` (lines 343-362). -/
def cleanup {KV R : Type} (s : Session KV R) : Session KV R :=
  let s := if s.g_ctx.isSome then { s with g_ctx := none } else s
  let s := if s.g_model.isSome then { s with g_model := none } else s
  { s with g_initialized := false }

/-- `isInitialized` (lines 364-369). -/
def isInitialized {KV R : Type} (s : Session KV R) : Bool :=
  s.g_initialized

/-! ## `detokenize` (lines 135-157) -/

/-- Result of `detokenize`: the returned string and the indices at which the
call wrote the terminator into `text`. -/
structure Detokenized where
  ret : String
  nul_writes : List Nat
deriving DecidableEq, Repr

/-- `detokenize` (lines 135-157). -/
def detokenize {KV R : Type} (s : Session KV R) (token : Int) : Detokenized :=
  if !s.g_initialized || s.g_ctx.isNone || s.g_model.isNone then
    { ret := "", nul_writes := [] }
  else
    match s.g_model with
    | none => { ret := "", nul_writes := [] }
    | some model =>
      let piece := model.vocab.llama_token_to_piece token text_capacity
      let text_len := piece.1
      if text_len < 0 then { ret := "", nul_writes := [] }
      else
        let text := terminate piece.2 text_len.toNat
        { ret := cstr text, nul_writes := [text_len.toNat] }

/-! ## `generateResponse` (lines 159-341) -/

/-- The `jobject callback`: whether `GetMethodID` finds `onToken(String)`. -/
structure Callback where
  has_onToken : Bool
deriving DecidableEq, Repr

/-- The `return` statement a call of `generateResponse` leaves through. -/
inductive Exit
  | model_not_initialized
  | no_input_tokens
  | batch_init_failed
  | invalid_token
  | process_input_failed
  | response
  /-- Not a `return`: the sampling block yielded no id (line 263 threw, or line
  276 read outside the candidate array), and nothing is said about what the
  call does from there. -/
  | sampling_fault
deriving DecidableEq, Repr

/-- The local `response` and a record of the calls made so far.  A batch is
named by the number of `llama_batch_init` calls made before its own. -/
structure Trace where
  /-- The local `std::string response`. -/
  response : String
  /-- The strings appended to `response`, in order. -/
  appended : List String
  /-- The strings passed to `onToken`, in order. -/
  on_token : List String
  /-- The batches passed to `llama_decode`, in order. -/
  decoded : List llama_batch
  /-- The batches obtained from `llama_batch_init`, in order. -/
  batch_init : List Nat
  /-- The batches passed to `llama_batch_free`, in order. -/
  batch_free : List Nat
  /-- The indices of the terminator writes into `text`, in order. -/
  nul_writes : List Nat
  /-- Number of times the body of the generation loop was entered. -/
  iterations : Nat
  /-- Whether the sampling block yielded no id (see `Exit.sampling_fault`). -/
  sampling_fault : Bool
deriving DecidableEq, Repr

/-- Nothing called yet, `response` empty. -/
def Trace.start : Trace :=
  { response := "", appended := [], on_token := [], decoded := [], batch_init := [],
    batch_free := [], nul_writes := [], iterations := 0, sampling_fault := false }

/-- What a call of `generateResponse` yields. -/
structure Generated (KV R : Type) where
  exit : Exit
  /-- The returned `jstring` (empty under `Exit.sampling_fault`, where the call
  is not followed to a `return`). -/
  ret : String
  /-- The globals when the call returns. -/
  session : Session KV R
  trace : Trace

/-- The call `llama_batch_init(n_tokens_alloc, 0, 1)`: `n_tokens` is 0 and the
arrays have `n_tokens_alloc` slots, modelled as zero until written.  `malloc_ok`
tells whether the `token` array was obtained. -/
def llama_batch_init (malloc_ok : Bool) (n_tokens_alloc : Nat) : llama_batch :=
  { n_tokens := 0
    token_allocated := malloc_ok
    token := List.replicate n_tokens_alloc 0
    pos := List.replicate n_tokens_alloc 0
    n_seq_id := List.replicate n_tokens_alloc 0
    seq_id := List.replicate n_tokens_alloc [0]
    logits := List.replicate n_tokens_alloc false }

/-- Lines 219-232: the loop over `input_tokens` from index `i` on; `none` when
it meets a negative token. -/
def add_tokens : List Int → Nat → llama_batch → Option llama_batch
  | [], _, batch => some batch
  | tok :: rest, i, batch =>
    if tok ≥ 0 then
      add_tokens rest (i + 1)
        { batch with
          token := batch.token.set i tok
          pos := batch.pos.set i i
          n_seq_id := batch.n_seq_id.set i 1
          seq_id := batch.seq_id.set i [0]
          logits := batch.logits.set i false }
    else none

/-- Lines 235-237: logits are requested for the last slot. -/
def enable_last_logits (batch : llama_batch) : llama_batch :=
  if batch.n_tokens > 0 then
    { batch with logits := batch.logits.set (batch.n_tokens - 1) true }
  else batch

/-- Lines 312-318: the single-token batch of one iteration.  The source
writes through `next_batch.token` unchecked, so the batch is one whose arrays
were obtained. -/
def next_batch (new_token_id : Int) (pos : Nat) : llama_batch :=
  let b := llama_batch_init true 1
  { b with
    n_tokens := 1
    token := b.token.set 0 new_token_id
    pos := b.pos.set 0 pos
    n_seq_id := b.n_seq_id.set 0 1
    seq_id := b.seq_id.set 0 [0]
    logits := b.logits.set 0 true }

/-- Lines 292-309: the piece of the sampled token is terminated, appended to
`response` and passed to `onToken`, when its reported length is positive. -/
def emit_piece (callback : Option Callback) (piece : Int × List Char) (t : Trace) : Trace :=
  let text_len := piece.1
  if text_len > 0 then
    let text := terminate piece.2 text_len.toNat
    let t := { t with
      nul_writes := t.nul_writes ++ [text_len.toNat]
      response := t.response ++ cstr text
      appended := t.appended ++ [cstr text] }
    match callback with
    | none => t
    | some cb =>
      if cb.has_onToken then { t with on_token := t.on_token ++ [cstr text] } else t
  else t

/-- Lines 260-335: the loop `for (int i = 0; i < 100; i++)`, entered with
`fuel = 100 - i`.  Each of the two `break`s returns the state reached; so does
a sampling block that yields no id, with `sampling_fault` set. -/
def generation_loop {KV R L : Type} [LinearOrder L] (P : Llama KV R L) (vocab : llama_vocab)
    (callback : Option Callback) (n_input : Nat) :
    Nat → Nat → llama_context KV R → Trace → llama_context KV R × Trace
  | 0, _, ctx, t => (ctx, t)
  | fuel + 1, i, ctx, t =>
    let t := { t with iterations := t.iterations + 1 }
    match sample_greedy (P.llama_get_logits ctx) vocab.llama_vocab_n_tokens with
    | none => (ctx, { t with sampling_fault := true })
    | some new_token_id =>
      if new_token_id = vocab.llama_vocab_eos then (ctx, t)
      else
        let t := emit_piece callback (vocab.llama_token_to_piece new_token_id text_capacity) t
        let handle := t.batch_init.length
        let batch := next_batch new_token_id (n_input + i)
        let t := { t with batch_init := t.batch_init ++ [handle] }
        let decode := P.llama_decode ctx batch
        let t := { t with decoded := t.decoded ++ [batch] }
        if decode.1 ≠ 0 then
          (decode.2, { t with batch_free := t.batch_free ++ [handle] })
        else
          generation_loop P vocab callback n_input fuel (i + 1) decode.2
            { t with batch_free := t.batch_free ++ [handle] }

/-- Lines 215-237 on the batch obtained at line 206: the prompt batch as
passed to `llama_decode`, or `none` when a token is negative. -/
def prompt_batch (batch : llama_batch) (input_tokens : List Int) : Option llama_batch :=
  let batch := { batch with n_tokens := input_tokens.length }
  (add_tokens input_tokens 0 batch).map enable_last_logits

/-- `generateResponse` (lines 159-341).  `malloc_ok` tells whether the
`token` array of the prompt batch was obtained (line 210). -/
def generateResponse {KV R L : Type} [LinearOrder L] (P : Llama KV R L) (malloc_ok : Bool)
    (s : Session KV R) (tokens : List Int) (callback : Option Callback) : Generated KV R :=
  if !s.g_initialized || s.g_ctx.isNone then
    { exit := .model_not_initialized, ret := "Error: Model not initialized", session := s,
      trace := Trace.start }
  else
    match s.g_ctx, s.g_model with
    | some g_ctx, some model =>
      let ctx := llama_kv_self_clear P g_ctx
      let input_tokens := tokens
      if input_tokens.isEmpty then
        { exit := .no_input_tokens, ret := "Error: No input tokens",
          session := { s with g_ctx := some ctx }, trace := Trace.start }
      else
        let batch := llama_batch_init malloc_ok input_tokens.length
        let t := { Trace.start with batch_init := [0] }
        if !batch.token_allocated then
          { exit := .batch_init_failed, ret := "Error: Batch initialization failed",
            session := { s with g_ctx := some ctx }, trace := t }
        else
          match prompt_batch batch input_tokens with
          | none =>
            { exit := .invalid_token, ret := "Error: Invalid token",
              session := { s with g_ctx := some ctx },
              trace := { t with batch_free := t.batch_free ++ [0] } }
          | some batch =>
            let decode := P.llama_decode ctx batch
            let t := { t with decoded := t.decoded ++ [batch] }
            if decode.1 ≠ 0 then
              { exit := .process_input_failed, ret := "Error: Failed to process input",
                session := { s with g_ctx := some decode.2 },
                trace := { t with batch_free := t.batch_free ++ [0] } }
            else
              let done := generation_loop P model.vocab callback input_tokens.length
                100 0 decode.2 t
              if done.2.sampling_fault then
                { exit := .sampling_fault, ret := "",
                  session := { s with g_ctx := some done.1 }, trace := done.2 }
              else
                { exit := .response, ret := done.2.response,
                  session := { s with g_ctx := some done.1 },
                  trace := { done.2 with batch_free := done.2.batch_free ++ [0] } }
    | _, _ =>
      { exit := .model_not_initialized, ret := "Error: Model not initialized", session := s,
        trace := Trace.start }

/-! ## Definitions used to state and prove the properties -/

/-- What the scan has established once indices `0 .. k` are processed. -/
def FirstMax {L : Type} [LinearOrder L] (logits : Nat → L) (k i : Nat) : Prop :=
  i ≤ k ∧ (∀ j, j ≤ k → logits j ≤ logits i) ∧ (∀ j, j < i → logits j < logits i)

/-! ## The prompt batch in closed form -/

/-- The prompt batch in closed form: the input tokens at positions `0 .. N-1`,
one sequence id 0 per slot, logits requested for the last slot only. -/
def prompt_batch_built (tokens : List Int) : llama_batch :=
  { n_tokens := tokens.length
    token_allocated := true
    token := tokens
    pos := List.range' 0 tokens.length
    n_seq_id := List.replicate tokens.length 1
    seq_id := List.replicate tokens.length [0]
    logits := (List.replicate tokens.length false).set (tokens.length - 1) true }

/-! ## The generation loop, iteration by iteration

The sequences below follow the loop as long as no iteration leaves it: the
context at the start of iteration `i` (counted from 0), the token sampled
there, the result code of its forward pass, and the trace. -/

/-- The text appended for a sampled token (lines 292-296), if any. -/
def fragment_of (vocab : llama_vocab) (new_token_id : Int) : Option String :=
  let piece := vocab.llama_token_to_piece new_token_id text_capacity
  if piece.1 > 0 then some (cstr (terminate piece.2 piece.1.toNat)) else none

/-- The id the sampling block yields in the context `ctx`; 0 stands in where
the block yields none (the sequences below are then not followed by the loop). -/
def sampled_id {KV R L : Type} [LinearOrder L] (P : Llama KV R L) (vocab : llama_vocab)
    (ctx : llama_context KV R) : Int :=
  (sample_greedy (P.llama_get_logits ctx) vocab.llama_vocab_n_tokens).getD 0

/-- The context at the start of iteration `i`, from the context `ctx0` left by
the prompt decode. -/
def ctx_at {KV R L : Type} [LinearOrder L] (P : Llama KV R L) (vocab : llama_vocab)
    (n_input : Nat) (ctx0 : llama_context KV R) : Nat → llama_context KV R
  | 0 => ctx0
  | i + 1 =>
    (P.llama_decode (ctx_at P vocab n_input ctx0 i)
      (next_batch (sampled_id P vocab (ctx_at P vocab n_input ctx0 i)) (n_input + i))).2

/-- The token the sampler selects on iteration `i`, if the block yields one. -/
def token_at {KV R L : Type} [LinearOrder L] (P : Llama KV R L) (vocab : llama_vocab)
    (n_input : Nat) (ctx0 : llama_context KV R) (i : Nat) : Option Int :=
  sample_greedy (P.llama_get_logits (ctx_at P vocab n_input ctx0 i)) vocab.llama_vocab_n_tokens

/-- The single-token batch built on iteration `i`. -/
def batch_at {KV R L : Type} [LinearOrder L] (P : Llama KV R L) (vocab : llama_vocab)
    (n_input : Nat) (ctx0 : llama_context KV R) (i : Nat) : llama_batch :=
  next_batch (sampled_id P vocab (ctx_at P vocab n_input ctx0 i)) (n_input + i)

/-- The result code of the incremental decode of iteration `i`. -/
def decode_code_at {KV R L : Type} [LinearOrder L] (P : Llama KV R L) (vocab : llama_vocab)
    (n_input : Nat) (ctx0 : llama_context KV R) (i : Nat) : Int :=
  (P.llama_decode (ctx_at P vocab n_input ctx0 i) (batch_at P vocab n_input ctx0 i)).1

/-- Iteration `i` leaves the loop: the stop token is sampled, or the
incremental decode returns a non-zero code. -/
def ends_at {KV R L : Type} [LinearOrder L] (P : Llama KV R L) (vocab : llama_vocab)
    (n_input : Nat) (ctx0 : llama_context KV R) (i : Nat) : Prop :=
  token_at P vocab n_input ctx0 i = some vocab.llama_vocab_eos ∨
    decode_code_at P vocab n_input ctx0 i ≠ 0

/-- The trace after one whole pass through the loop body (no stop token). -/
def iteration_trace (vocab : llama_vocab) (callback : Option Callback) (new_token_id : Int)
    (pos : Nat) (t : Trace) : Trace :=
  let t := { t with iterations := t.iterations + 1 }
  let t := emit_piece callback (vocab.llama_token_to_piece new_token_id text_capacity) t
  { t with
    batch_init := t.batch_init ++ [t.batch_init.length]
    decoded := t.decoded ++ [next_batch new_token_id pos]
    batch_free := t.batch_free ++ [t.batch_init.length] }

/-- The trace at the start of iteration `i`, from the trace `t0` at loop entry. -/
def trace_at {KV R L : Type} [LinearOrder L] (P : Llama KV R L) (vocab : llama_vocab)
    (callback : Option Callback) (n_input : Nat) (ctx0 : llama_context KV R) (t0 : Trace) :
    Nat → Trace
  | 0 => t0
  | i + 1 =>
    iteration_trace vocab callback (sampled_id P vocab (ctx_at P vocab n_input ctx0 i))
      (n_input + i) (trace_at P vocab callback n_input ctx0 t0 i)

/-- The three ways the loop is left. -/
inductive LoopEnd
  | stop_token
  | decode_failed
  | cap
deriving DecidableEq, Repr

/-- The state in which the loop is left at iteration `m` in way `e`. -/
def loop_result {KV R L : Type} [LinearOrder L] (P : Llama KV R L) (vocab : llama_vocab)
    (callback : Option Callback) (n_input : Nat) (ctx0 : llama_context KV R) (t0 : Trace)
    (m : Nat) : LoopEnd → llama_context KV R × Trace
  | .stop_token =>
    (ctx_at P vocab n_input ctx0 m,
     { trace_at P vocab callback n_input ctx0 t0 m with
       iterations := (trace_at P vocab callback n_input ctx0 t0 m).iterations + 1 })
  | .decode_failed =>
    (ctx_at P vocab n_input ctx0 (m + 1), trace_at P vocab callback n_input ctx0 t0 (m + 1))
  | .cap =>
    (ctx_at P vocab n_input ctx0 m, trace_at P vocab callback n_input ctx0 t0 m)

/-! ## Fragments, notifications and terminator writes of an iteration -/

/-- Whether `onToken` is called: the callback is non-null and has the method
(lines 299-302). -/
def exposes_onToken : Option Callback → Bool
  | none => false
  | some cb => cb.has_onToken

/-- Strings concatenated in order. -/
def concat_all (fs : List String) : String :=
  fs.foldl (fun acc f => acc ++ f) ""

/-- The index of the terminator write for a sampled token (line 295), if any. -/
def nul_write_of (vocab : llama_vocab) (new_token_id : Int) : Option Nat :=
  let piece := vocab.llama_token_to_piece new_token_id text_capacity
  if piece.1 > 0 then some piece.1.toNat else none

/-- The fragments appended for the tokens sampled on iterations `0 .. m-1`, in
order. -/
def fragments_before {KV R L : Type} [LinearOrder L] (P : Llama KV R L) (vocab : llama_vocab)
    (n_input : Nat) (ctx0 : llama_context KV R) (m : Nat) : List String :=
  (List.range m).filterMap fun i =>
    (token_at P vocab n_input ctx0 i).bind (fragment_of vocab)

/-- The terminator writes for the tokens sampled on iterations `0 .. m-1`. -/
def nul_writes_before {KV R L : Type} [LinearOrder L] (P : Llama KV R L)
    (vocab : llama_vocab) (n_input : Nat) (ctx0 : llama_context KV R) (m : Nat) : List Nat :=
  (List.range m).filterMap fun i =>
    (token_at P vocab n_input ctx0 i).bind (nul_write_of vocab)

/-- The text of a token: its piece read as a C string, empty when the library
reports a failure (what `detokenize` returns for the token). -/
def token_text (vocab : llama_vocab) (token : Int) : String :=
  let piece := vocab.llama_token_to_piece token text_capacity
  if piece.1 < 0 then "" else cstr (terminate piece.2 piece.1.toNat)

/-! ## The prompt decode -/

/-- The prompt decode (line 242) of a request with non-negative tokens: the
forward pass on the cleared context and the prompt batch. -/
def prompt_decode {KV R L : Type} (P : Llama KV R L) (g_ctx : llama_context KV R)
    (tokens : List Int) : Int × llama_context KV R :=
  P.llama_decode (llama_kv_self_clear P g_ctx) (prompt_batch_built tokens)

/-- The trace when the generation loop is entered. -/
def loop_entry_trace (tokens : List Int) : Trace :=
  { Trace.start with batch_init := [0], decoded := [prompt_batch_built tokens] }

/-! ## A small concrete library, used to instantiate the theorems

Four token ids; id 3 is the stop token.  The cache counts the tokens decoded
since it was cleared; the logits favour the id `count mod 4`; a forward pass
fails once five tokens are in the cache. -/

/-- Pieces: id 0 is the single byte NUL, id 1 is `hi`, id 2 has no text. -/
def demo_vocab : llama_vocab where
  llama_vocab_n_tokens := 4
  llama_vocab_eos := 3
  llama_token_to_piece := fun tok _ =>
    if tok = 0 then (1, [NUL]) else if tok = 1 then (2, ['h', 'i']) else (0, [])

/-- The forward pass of the demo library. -/
def demo_llama : Llama Nat Nat Int where
  kv_cleared := 0
  llama_decode := fun ctx batch =>
    (if ctx.kv ≥ 5 then 1 else 0, { ctx with kv := ctx.kv + batch.n_tokens })
  llama_get_logits := fun ctx j => if j = ctx.kv % 4 then 1 else 0

/-- A context whose cache holds seven tokens of an earlier request. -/
def demo_ctx : llama_context Nat Nat := { kv := 7, rest := 0 }

/-- An initialized session over the demo library. -/
def demo_session : Session Nat Nat :=
  { g_initialized := true, g_ctx := some demo_ctx, g_model := some { vocab := demo_vocab } }

/-- The same session with a different cache. -/
def demo_session_other : Session Nat Nat :=
  { g_initialized := true, g_ctx := some { kv := 2, rest := 0 },
    g_model := some { vocab := demo_vocab } }

/-- The demo vocabulary with the letter `a` in place of the NUL piece of
id 0: no piece begins with NUL. -/
def plain_vocab : llama_vocab where
  llama_vocab_n_tokens := 4
  llama_vocab_eos := 3
  llama_token_to_piece := fun tok _ =>
    if tok = 0 then (1, ['a']) else if tok = 1 then (2, ['h', 'i']) else (0, [])

/-- An initialized session over `plain_vocab`. -/
def plain_session : Session Nat Nat :=
  { g_initialized := true, g_ctx := some demo_ctx, g_model := some { vocab := plain_vocab } }

/-- A vocabulary that reports a negative number of tokens. -/
def no_vocab : llama_vocab where
  llama_vocab_n_tokens := -1
  llama_vocab_eos := 3
  llama_token_to_piece := fun _ _ => (0, [])

/-- An initialized session over `no_vocab`. -/
def no_vocab_session : Session Nat Nat :=
  { g_initialized := true, g_ctx := some demo_ctx, g_model := some { vocab := no_vocab } }

/-- A forward pass that always fails with code 1. -/
def failing_llama : Llama Nat Nat Int where
  kv_cleared := 0
  llama_decode := fun ctx _ => (1, ctx)
  llama_get_logits := fun _ _ => 0

/-! ## Sequences of lifecycle calls -/

/-- A call that changes the session: `initModel` with the outcomes of the
model load and of the context creation, or `cleanup`. -/
inductive SessionCall (KV R : Type)
  | initModel (load : Option llama_model)
      (init_from_model : llama_model → Option (llama_context KV R))
  | cleanup

/-- The session after one call. -/
def session_step {KV R : Type} (s : Session KV R) : SessionCall KV R → Session KV R
  | .initModel load init_from_model => (initModel load init_from_model s).2
  | .cleanup => cleanup s

/-- The session after a sequence of calls from the initial state. -/
def session_after {KV R : Type} (calls : List (SessionCall KV R)) : Session KV R :=
  calls.foldl session_step Session.initial

/-- Whether a call is an `initModel` whose model load and context creation
both succeed. -/
def loads_model {KV R : Type} : SessionCall KV R → Bool
  | .initModel load init_from_model => (load.bind init_from_model).isSome
  | .cleanup => false

/-- Model and context are both present or both absent, and the flag is set
exactly when they are present. -/
def session_consistent {KV R : Type} (s : Session KV R) : Prop :=
  (s.g_model.isSome ↔ s.g_ctx.isSome) ∧
  (isInitialized s = true ↔ s.g_model.isSome ∧ s.g_ctx.isSome)

/-! ## The observer property -/

/-- The observer property as the specification words it, for one call: the
notified strings are the non-empty fragments appended to the response, none
of them is empty, and the returned text is their concatenation. -/
def observer_claim {KV R : Type} (g : Generated KV R) : Prop :=
  g.trace.on_token = g.trace.appended.filter (fun f => f != "") ∧
  (∀ f ∈ g.trace.on_token, f ≠ "") ∧
  g.ret = concat_all g.trace.on_token

/-- No piece of positive reported length begins with a NUL character. -/
def pieces_start_nonNUL (vocab : llama_vocab) : Prop :=
  ∀ tok : Int, 0 < (vocab.llama_token_to_piece tok text_capacity).1 →
    ∃ c rest, (vocab.llama_token_to_piece tok text_capacity).2 = c :: rest ∧ c ≠ NUL

/-! ## A vocabulary with a piece that fills the buffer -/

/-- A vocabulary whose token 0 has a piece that fills the whole buffer: the
library stores `cap` characters and returns `cap`. -/
def full_vocab : llama_vocab where
  llama_vocab_n_tokens := 4
  llama_vocab_eos := 3
  llama_token_to_piece := fun tok cap =>
    if tok = 0 then (Int.ofNat cap, List.replicate cap 'a') else (0, [])

/-- An initialized session over `full_vocab`. -/
def full_session : Session Nat Nat :=
  { g_initialized := true, g_ctx := some demo_ctx, g_model := some { vocab := full_vocab } }

/-! # Theorems -/

/-! ### Correctness of the greedy scan -/

theorem candidates_data_length {L : Type} (logits : Nat → L) (size : Nat) :
    (candidates_data logits size).length = size := by
  simp [candidates_data]

theorem candidates_data_get {L : Type} (logits : Nat → L) (size j : Nat) (h : j < size) :
    (candidates_data logits size)[j]? = some { id := Int.ofNat j, logit := logits j } := by
  simp [candidates_data, List.getElem?_map, List.getElem?_range h]

theorem greedy_step_firstMax {L : Type} [LinearOrder L] (logits : Nat → L) (size k i : Nat)
    (hk : k + 1 < size) (hi : FirstMax logits k i) :
    ∃ i2 : Nat, greedy_step (candidates_data logits size) (i : Int) (k + 1) = (i2 : Int) ∧
      FirstMax logits (k + 1) i2 := by
  obtain ⟨hik, hmax, hfirst⟩ := hi
  have hi_lt : i < size := by omega
  unfold greedy_step
  rw [candidates_data_get logits size (k + 1) hk]
  simp only [Int.toNat_ofNat]
  rw [candidates_data_get logits size i hi_lt]
  simp only []
  by_cases hgt : logits (k + 1) > logits i
  · refine ⟨k + 1, by simp [hgt], le_refl _, ?_, ?_⟩
    · intro j hj
      rcases Nat.lt_or_ge j (k + 1) with hlt | hge
      · exact le_trans (hmax j (by omega)) (le_of_lt hgt)
      · have : j = k + 1 := by omega
        subst this
        exact le_refl _
    · intro j hj
      exact lt_of_le_of_lt (hmax j (by omega)) hgt
  · refine ⟨i, by simp [hgt], by omega, ?_, hfirst⟩
    intro j hj
    rcases Nat.lt_or_ge j (k + 1) with hlt | hge
    · exact hmax j (by omega)
    · have : j = k + 1 := by omega
      subst this
      exact not_lt.mp hgt

theorem greedy_scan_firstMax {L : Type} [LinearOrder L] (logits : Nat → L) (size : Nat) :
    ∀ m : Nat, m + 1 ≤ size →
      ∃ i : Nat, (List.range' 1 m).foldl (greedy_step (candidates_data logits size)) 0
          = (i : Int) ∧ FirstMax logits m i := by
  intro m
  induction m with
  | zero =>
    intro _
    refine ⟨0, by simp, le_refl _, ?_, ?_⟩
    · intro j hj
      have : j = 0 := by omega
      subst this
      exact le_refl _
    · intro j hj
      omega
  | succ k ih =>
    intro hk
    obtain ⟨i, hfold, hfm⟩ := ih (by omega)
    obtain ⟨i2, hstep, hfm2⟩ := greedy_step_firstMax logits size k i (by omega) hfm
    refine ⟨i2, ?_, hfm2⟩
    rw [List.range'_1_concat, List.foldl_append, hfold]
    simpa [Nat.add_comm] using hstep

/-- For a vocabulary of at least one token the sampling block yields an id,
the first index of the maximum logit. -/
theorem sample_greedy_firstMax {L : Type} [LinearOrder L] (logits : Nat → L)
    (size : Nat) (hsize : 1 ≤ size) :
    ∃ i : Nat, sample_greedy logits (size : Int) = some (i : Int) ∧
      FirstMax logits (size - 1) i := by
  obtain ⟨i, hfold, hfm⟩ := greedy_scan_firstMax logits size (size - 1) (by omega)
  refine ⟨i, ?_, hfm⟩
  unfold sample_greedy greedy_select
  have hneg : ¬ ((size : Int) < 0) := by omega
  rw [if_neg hneg]
  simp only [Int.toNat_ofNat, candidates_data_length]
  rw [candidates_data_get logits size 0 (by omega)]
  simp only [Option.some.injEq]
  simpa using hfold

theorem sample_greedy_isSome {L : Type} [LinearOrder L] (logits : Nat → L) (n : Int)
    (hn : 1 ≤ n) : sample_greedy logits n = some ((sample_greedy logits n).getD 0) := by
  obtain ⟨size, rfl⟩ : ∃ size : Nat, n = (size : Int) := ⟨n.toNat, by omega⟩
  obtain ⟨i, hi, _⟩ := sample_greedy_firstMax logits size (by omega)
  rw [hi]
  rfl

theorem sample_greedy_none {L : Type} [LinearOrder L] (logits : Nat → L) (n : Int)
    (hn : n < 1) : sample_greedy logits n = none := by
  unfold sample_greedy
  by_cases hneg : n < 0
  · rw [if_pos hneg]
  · rw [if_neg hneg]
    have h0 : n = 0 := by omega
    subst h0
    rfl

theorem sample_greedy_some_vocab {L : Type} [LinearOrder L] (logits : Nat → L) (n : Int)
    (id : Int) (h : sample_greedy logits n = some id) : 1 ≤ n := by
  by_contra hn
  rw [sample_greedy_none logits n (by omega)] at h
  cases h

/-- C3. For every logits vector over a vocabulary of size `n ≥ 1` with
linearly ordered logit values, the id chosen by the greedy block is an index
`i` in `[0, n)` with `logits[j] ≤ logits[i]` for every `j < n` and
`logits[j] < logits[i]` for every `j < i`: the maximum-logit id, ties going to
the lowest index. -/
theorem sample_greedy_first_argmax {L : Type} [LinearOrder L] (logits : Nat → L)
    (n : Int) (hn : 1 ≤ n) :
    ∃ i : Nat, sample_greedy logits n = some (i : Int) ∧ (i : Int) < n ∧
      (∀ j : Nat, (j : Int) < n → logits j ≤ logits i) ∧
      (∀ j : Nat, j < i → logits j < logits i) := by
  obtain ⟨size, rfl⟩ : ∃ size : Nat, n = (size : Int) := ⟨n.toNat, by omega⟩
  have hsize : 1 ≤ size := by omega
  obtain ⟨i, hsample, hik, hmax, hfirst⟩ := sample_greedy_firstMax logits size hsize
  refine ⟨i, hsample, by omega, ?_, hfirst⟩
  intro j hj
  exact hmax j (by omega)

/-- Witness for C3 on the logits `[2, 7, 7, 1]`: the scan picks id 1. -/
theorem sample_greedy_first_argmax_witness :
    (1 : Int) ≤ 4 ∧
    ∃ i : Nat, sample_greedy (fun j => ([2, 7, 7, 1] : List Int).getD j 0) 4
        = some (i : Int) ∧
      (i : Int) < 4 ∧
      (∀ j : Nat, (j : Int) < 4 →
        ([2, 7, 7, 1] : List Int).getD j 0 ≤ ([2, 7, 7, 1] : List Int).getD i 0) ∧
      (∀ j : Nat, j < i →
        ([2, 7, 7, 1] : List Int).getD j 0 < ([2, 7, 7, 1] : List Int).getD i 0) :=
  ⟨by decide, sample_greedy_first_argmax (fun j => ([2, 7, 7, 1] : List Int).getD j 0) 4
    (by decide)⟩

/-! ## The prompt batch built by lines 205-237 is the closed form -/

theorem llama_batch_init_token_allocated (malloc_ok : Bool) (n : Nat) :
    (llama_batch_init malloc_ok n).token_allocated = malloc_ok := rfl

theorem set_done_replicate {α : Type} (done : List α) (i k : Nat) (x y : α)
    (h : done.length = i) :
    (done ++ List.replicate (k + 1) x).set i y = (done ++ [y]) ++ List.replicate k x := by
  rw [List.set_append_right i y (by omega)]
  simp [h, List.replicate_succ]

theorem add_tokens_filled (rest : List Int) :
    ∀ (i : Nat) (batch : llama_batch) (dt : List Int) (dp dn : List Nat)
      (ds : List (List Int)) (dl : List Bool),
      dt.length = i → dp.length = i → dn.length = i → ds.length = i → dl.length = i →
      batch.token = dt ++ List.replicate rest.length 0 →
      batch.pos = dp ++ List.replicate rest.length 0 →
      batch.n_seq_id = dn ++ List.replicate rest.length 0 →
      batch.seq_id = ds ++ List.replicate rest.length [0] →
      batch.logits = dl ++ List.replicate rest.length false →
      (∀ tok ∈ rest, 0 ≤ tok) →
      add_tokens rest i batch = some
        { batch with
          token := dt ++ rest
          pos := dp ++ List.range' i rest.length
          n_seq_id := dn ++ List.replicate rest.length 1
          seq_id := ds ++ List.replicate rest.length [0]
          logits := dl ++ List.replicate rest.length false } := by
  induction rest with
  | nil =>
    intro i batch dt dp dn ds dl _ _ _ _ _ ht hp hn hs hl _
    cases batch
    simp only [List.length_nil, List.replicate_zero, List.append_nil] at ht hp hn hs hl
    simp [add_tokens, ht, hp, hn, hs, hl]
  | cons tok rest ih =>
    intro i batch dt dp dn ds dl hdt hdp hdn hds hdl ht hp hn hs hl hnonneg
    have htok : 0 ≤ tok := hnonneg tok (List.mem_cons_self _ _)
    simp only [List.length_cons] at ht hp hn hs hl
    unfold add_tokens
    rw [if_pos (by simpa using htok)]
    rw [ih (i + 1) _ (dt ++ [tok]) (dp ++ [i]) (dn ++ [1]) (ds ++ [[0]]) (dl ++ [false])
      (by simp [hdt]) (by simp [hdp]) (by simp [hdn]) (by simp [hds]) (by simp [hdl])
      (by simp only [ht]; exact set_done_replicate dt i _ 0 tok hdt)
      (by simp only [hp]; exact set_done_replicate dp i _ 0 i hdp)
      (by simp only [hn]; exact set_done_replicate dn i _ 0 1 hdn)
      (by simp only [hs]; exact set_done_replicate ds i _ [0] [0] hds)
      (by simp only [hl]; exact set_done_replicate dl i _ false false hdl)
      (fun t ht2 => hnonneg t (List.mem_cons_of_mem _ ht2))]
    simp [List.range'_succ, List.replicate_succ]

/-- With non-negative input tokens the batch passed to `llama_decode` is the
closed form. -/
theorem prompt_batch_of_nonneg (tokens : List Int) (h : ∀ tok ∈ tokens, 0 ≤ tok) :
    prompt_batch (llama_batch_init true tokens.length) tokens
      = some (prompt_batch_built tokens) := by
  unfold prompt_batch
  simp only []
  rw [add_tokens_filled tokens 0 _ [] [] [] [] [] rfl rfl rfl rfl rfl
    (by simp [llama_batch_init]) (by simp [llama_batch_init]) (by simp [llama_batch_init])
    (by simp [llama_batch_init]) (by simp [llama_batch_init]) h]
  simp only [Option.map_some', List.nil_append, Option.some.injEq]
  unfold enable_last_logits prompt_batch_built
  by_cases hlen : tokens.length > 0
  · simp [hlen, llama_batch_init]
  · have : tokens = [] := by
      cases tokens with
      | nil => rfl
      | cons a l => simp at hlen
    subst this
    simp [llama_batch_init]

theorem add_tokens_negative (tokens : List Int) (h : ∃ tok ∈ tokens, tok < 0) :
    ∀ (i : Nat) (batch : llama_batch), add_tokens tokens i batch = none := by
  induction tokens with
  | nil =>
    obtain ⟨tok, hmem, _⟩ := h
    simp at hmem
  | cons a rest ih =>
    intro i batch
    unfold add_tokens
    by_cases ha : a ≥ 0
    · rw [if_pos ha]
      obtain ⟨tok, hmem, hneg⟩ := h
      rcases List.mem_cons.mp hmem with heq | hrest
      · omega
      · exact ih ⟨tok, hrest, hneg⟩ _ _
    · rw [if_neg ha]

/-- With a negative input token, at any index, no prompt batch is completed. -/
theorem prompt_batch_of_negative (batch : llama_batch) (tokens : List Int)
    (h : ∃ tok ∈ tokens, tok < 0) : prompt_batch batch tokens = none := by
  unfold prompt_batch
  simp only []
  rw [add_tokens_negative tokens h]
  rfl

/-! ## The loop follows the iteration sequences -/

theorem token_at_some {KV R L : Type} [LinearOrder L] (P : Llama KV R L)
    (vocab : llama_vocab) (n_input : Nat) (ctx0 : llama_context KV R)
    (hvocab : 1 ≤ vocab.llama_vocab_n_tokens) (i : Nat) :
    token_at P vocab n_input ctx0 i
      = some (sampled_id P vocab (ctx_at P vocab n_input ctx0 i)) :=
  sample_greedy_isSome _ _ hvocab

/-- One unfolding of the loop over a vocabulary of at least one token, in
terms of `iteration_trace`. -/
theorem generation_loop_succ {KV R L : Type} [LinearOrder L] (P : Llama KV R L)
    (vocab : llama_vocab) (callback : Option Callback) (n_input fuel i : Nat)
    (ctx : llama_context KV R) (t : Trace) (hvocab : 1 ≤ vocab.llama_vocab_n_tokens) :
    generation_loop P vocab callback n_input (fuel + 1) i ctx t =
      if sampled_id P vocab ctx = vocab.llama_vocab_eos then
        (ctx, { t with iterations := t.iterations + 1 })
      else if (P.llama_decode ctx (next_batch (sampled_id P vocab ctx) (n_input + i))).1 ≠ 0 then
        ((P.llama_decode ctx (next_batch (sampled_id P vocab ctx) (n_input + i))).2,
         iteration_trace vocab callback (sampled_id P vocab ctx) (n_input + i) t)
      else
        generation_loop P vocab callback n_input fuel (i + 1)
          (P.llama_decode ctx (next_batch (sampled_id P vocab ctx) (n_input + i))).2
          (iteration_trace vocab callback (sampled_id P vocab ctx) (n_input + i) t) := by
  have hsome := sample_greedy_isSome (P.llama_get_logits ctx) _ hvocab
  rw [generation_loop]
  simp only [sampled_id]
  rw [hsome]
  rfl

/-- Over a vocabulary without tokens the first sampling block yields no id. -/
theorem generation_loop_fault {KV R L : Type} [LinearOrder L] (P : Llama KV R L)
    (vocab : llama_vocab) (callback : Option Callback) (n_input fuel i : Nat)
    (ctx : llama_context KV R) (t : Trace) (hvocab : vocab.llama_vocab_n_tokens < 1) :
    generation_loop P vocab callback n_input (fuel + 1) i ctx t =
      (ctx, { t with iterations := t.iterations + 1, sampling_fault := true }) := by
  have hnone := sample_greedy_none (P.llama_get_logits ctx) _ hvocab
  rw [generation_loop]
  simp only []
  rw [hnone]

/-- As long as no iteration leaves the loop, the loop follows `ctx_at` and
`trace_at`. -/
theorem generation_loop_follows {KV R L : Type} [LinearOrder L] (P : Llama KV R L)
    (vocab : llama_vocab) (callback : Option Callback) (n_input : Nat)
    (ctx0 : llama_context KV R) (t0 : Trace) (total : Nat)
    (hvocab : 1 ≤ vocab.llama_vocab_n_tokens) :
    ∀ m : Nat, m ≤ total → (∀ j, j < m → ¬ ends_at P vocab n_input ctx0 j) →
      generation_loop P vocab callback n_input total 0 ctx0 t0 =
        generation_loop P vocab callback n_input (total - m) m
          (ctx_at P vocab n_input ctx0 m) (trace_at P vocab callback n_input ctx0 t0 m) := by
  intro m
  induction m with
  | zero => intro _ _; rfl
  | succ m ih =>
    intro hm hnot
    rw [ih (by omega) (fun j hj => hnot j (by omega))]
    have hfuel : total - m = (total - (m + 1)) + 1 := by omega
    rw [hfuel, generation_loop_succ P vocab callback n_input _ m _ _ hvocab]
    have hm_not := hnot m (by omega)
    simp only [ends_at, not_or, not_not, token_at_some P vocab n_input ctx0 hvocab,
      Option.some.injEq, decode_code_at, batch_at] at hm_not
    rw [if_neg hm_not.1, if_neg (not_not.mpr hm_not.2)]
    rfl

theorem generation_loop_stop {KV R L : Type} [LinearOrder L] (P : Llama KV R L)
    (vocab : llama_vocab) (callback : Option Callback) (n_input : Nat)
    (ctx0 : llama_context KV R) (t0 : Trace) (total m : Nat) (hm : m < total)
    (hnot : ∀ j, j < m → ¬ ends_at P vocab n_input ctx0 j)
    (hstop : token_at P vocab n_input ctx0 m = some vocab.llama_vocab_eos) :
    generation_loop P vocab callback n_input total 0 ctx0 t0 =
      loop_result P vocab callback n_input ctx0 t0 m .stop_token := by
  have hvocab : 1 ≤ vocab.llama_vocab_n_tokens := sample_greedy_some_vocab _ _ _ hstop
  rw [generation_loop_follows P vocab callback n_input ctx0 t0 total hvocab m (by omega) hnot]
  have hfuel : total - m = (total - (m + 1)) + 1 := by omega
  rw [hfuel, generation_loop_succ P vocab callback n_input _ m _ _ hvocab]
  rw [token_at_some P vocab n_input ctx0 hvocab, Option.some.injEq] at hstop
  rw [if_pos hstop]
  rfl

theorem generation_loop_failed {KV R L : Type} [LinearOrder L] (P : Llama KV R L)
    (vocab : llama_vocab) (callback : Option Callback) (n_input : Nat)
    (ctx0 : llama_context KV R) (t0 : Trace) (total m : Nat) (hm : m < total)
    (hvocab : 1 ≤ vocab.llama_vocab_n_tokens)
    (hnot : ∀ j, j < m → ¬ ends_at P vocab n_input ctx0 j)
    (hgo : token_at P vocab n_input ctx0 m ≠ some vocab.llama_vocab_eos)
    (hfail : decode_code_at P vocab n_input ctx0 m ≠ 0) :
    generation_loop P vocab callback n_input total 0 ctx0 t0 =
      loop_result P vocab callback n_input ctx0 t0 m .decode_failed := by
  rw [generation_loop_follows P vocab callback n_input ctx0 t0 total hvocab m (by omega) hnot]
  have hfuel : total - m = (total - (m + 1)) + 1 := by omega
  rw [hfuel, generation_loop_succ P vocab callback n_input _ m _ _ hvocab]
  rw [token_at_some P vocab n_input ctx0 hvocab, ne_eq, Option.some.injEq] at hgo
  simp only [decode_code_at, batch_at] at hfail
  rw [if_neg hgo, if_pos hfail]
  rfl

theorem generation_loop_cap {KV R L : Type} [LinearOrder L] (P : Llama KV R L)
    (vocab : llama_vocab) (callback : Option Callback) (n_input : Nat)
    (ctx0 : llama_context KV R) (t0 : Trace) (total : Nat)
    (hvocab : 1 ≤ vocab.llama_vocab_n_tokens)
    (hnot : ∀ j, j < total → ¬ ends_at P vocab n_input ctx0 j) :
    generation_loop P vocab callback n_input total 0 ctx0 t0 =
      loop_result P vocab callback n_input ctx0 t0 total .cap := by
  rw [generation_loop_follows P vocab callback n_input ctx0 t0 total hvocab total (le_refl _)
    hnot]
  simp only [Nat.sub_self]
  rfl

/-- Over a vocabulary of at least one token every run of the loop is left in
one of the three ways, at the first iteration that ends it. -/
theorem generation_loop_outcome {KV R L : Type} [LinearOrder L] (P : Llama KV R L)
    (vocab : llama_vocab) (callback : Option Callback) (n_input : Nat)
    (ctx0 : llama_context KV R) (t0 : Trace) (total : Nat)
    (hvocab : 1 ≤ vocab.llama_vocab_n_tokens) :
    ∃ (m : Nat) (e : LoopEnd),
      generation_loop P vocab callback n_input total 0 ctx0 t0 =
        loop_result P vocab callback n_input ctx0 t0 m e ∧
      (∀ j, j < m → ¬ ends_at P vocab n_input ctx0 j) ∧
      (e = .stop_token → m < total ∧
        token_at P vocab n_input ctx0 m = some vocab.llama_vocab_eos) ∧
      (e = .decode_failed → m < total ∧
        token_at P vocab n_input ctx0 m ≠ some vocab.llama_vocab_eos ∧
        decode_code_at P vocab n_input ctx0 m ≠ 0) ∧
      (e = .cap → m = total) := by
  classical
  by_cases hex : ∃ j, j < total ∧ ends_at P vocab n_input ctx0 j
  · have hlt := (Nat.find_spec hex).1
    have hend := (Nat.find_spec hex).2
    have hmin : ∀ j, j < Nat.find hex → ¬ ends_at P vocab n_input ctx0 j := by
      intro j hj hcontra
      exact Nat.find_min hex hj ⟨by omega, hcontra⟩
    by_cases hstop : token_at P vocab n_input ctx0 (Nat.find hex) = some vocab.llama_vocab_eos
    · exact ⟨Nat.find hex, .stop_token,
        generation_loop_stop P vocab callback n_input ctx0 t0 total _ hlt hmin hstop, hmin,
        fun _ => ⟨hlt, hstop⟩, (fun h => by cases h), (fun h => by cases h)⟩
    · have hfail : decode_code_at P vocab n_input ctx0 (Nat.find hex) ≠ 0 := by
        rcases hend with h | h
        · exact absurd h hstop
        · exact h
      exact ⟨Nat.find hex, .decode_failed,
        generation_loop_failed P vocab callback n_input ctx0 t0 total _ hlt hvocab hmin hstop
          hfail,
        hmin, (fun h => by cases h), fun _ => ⟨hlt, hstop, hfail⟩, (fun h => by cases h)⟩
  · have hnot : ∀ j, j < total → ¬ ends_at P vocab n_input ctx0 j :=
      fun j hj hcontra => hex ⟨j, hj, hcontra⟩
    exact ⟨total, .cap, generation_loop_cap P vocab callback n_input ctx0 t0 total hvocab hnot,
      hnot, (fun h => by cases h), (fun h => by cases h), fun _ => rfl⟩

/-! ## What the trace holds after `m` whole iterations -/

theorem foldl_append_from (fs : List String) :
    ∀ acc : String, fs.foldl (fun acc f => acc ++ f) acc = acc ++ concat_all fs := by
  induction fs with
  | nil => intro acc; simp [concat_all]
  | cons f fs ih =>
    intro acc
    simp only [concat_all, List.foldl_cons]
    rw [ih (acc ++ f), ih ("" ++ f), String.empty_append, String.append_assoc]

theorem concat_all_append (fs gs : List String) :
    concat_all (fs ++ gs) = concat_all fs ++ concat_all gs := by
  unfold concat_all
  rw [List.foldl_append, foldl_append_from gs]
  rfl

theorem concat_all_toList (o : Option String) : concat_all o.toList = o.getD "" := by
  cases o <;> simp [concat_all]

theorem emit_piece_fields (vocab : llama_vocab) (callback : Option Callback)
    (new_token_id : Int) (t : Trace) :
    let t2 := emit_piece callback (vocab.llama_token_to_piece new_token_id text_capacity) t
    t2.iterations = t.iterations ∧
    t2.appended = t.appended ++ (fragment_of vocab new_token_id).toList ∧
    t2.response = t.response ++ concat_all (fragment_of vocab new_token_id).toList ∧
    t2.on_token = t.on_token ++
      (if exposes_onToken callback then (fragment_of vocab new_token_id).toList else []) ∧
    t2.nul_writes = t.nul_writes ++ (nul_write_of vocab new_token_id).toList ∧
    t2.decoded = t.decoded ∧ t2.batch_init = t.batch_init ∧ t2.batch_free = t.batch_free ∧
    t2.sampling_fault = t.sampling_fault := by
  intro t2
  by_cases hlen : (vocab.llama_token_to_piece new_token_id text_capacity).1 > 0
  · have hfrag : fragment_of vocab new_token_id = some (cstr (terminate
        (vocab.llama_token_to_piece new_token_id text_capacity).2
        (vocab.llama_token_to_piece new_token_id text_capacity).1.toNat)) := by
      simp [fragment_of, hlen]
    have hwrite : nul_write_of vocab new_token_id =
        some (vocab.llama_token_to_piece new_token_id text_capacity).1.toNat := by
      simp [nul_write_of, hlen]
    rw [hfrag, hwrite]
    cases callback with
    | none => simp [t2, emit_piece, hlen, exposes_onToken, concat_all]
    | some cb =>
      by_cases hcb : cb.has_onToken = true
      · simp [t2, emit_piece, hlen, exposes_onToken, hcb, concat_all]
      · simp [t2, emit_piece, hlen, exposes_onToken, hcb, concat_all]
  · have hfrag : fragment_of vocab new_token_id = none := by simp [fragment_of, hlen]
    have hwrite : nul_write_of vocab new_token_id = none := by simp [nul_write_of, hlen]
    rw [hfrag, hwrite]
    simp [t2, emit_piece, hlen, concat_all]

theorem iteration_trace_fields (vocab : llama_vocab) (callback : Option Callback)
    (new_token_id : Int) (pos : Nat) (t : Trace) :
    let t2 := iteration_trace vocab callback new_token_id pos t
    t2.iterations = t.iterations + 1 ∧
    t2.appended = t.appended ++ (fragment_of vocab new_token_id).toList ∧
    t2.response = t.response ++ concat_all (fragment_of vocab new_token_id).toList ∧
    t2.on_token = t.on_token ++
      (if exposes_onToken callback then (fragment_of vocab new_token_id).toList else []) ∧
    t2.nul_writes = t.nul_writes ++ (nul_write_of vocab new_token_id).toList ∧
    t2.decoded = t.decoded ++ [next_batch new_token_id pos] ∧
    t2.batch_init = t.batch_init ++ [t.batch_init.length] ∧
    t2.batch_free = t.batch_free ++ [t.batch_init.length] ∧
    t2.sampling_fault = t.sampling_fault := by
  intro t2
  obtain ⟨h1, h2, h3, h4, h5, h6, h7, h8, h9⟩ :=
    emit_piece_fields vocab callback new_token_id { t with iterations := t.iterations + 1 }
  refine ⟨?_, ?_, ?_, ?_, ?_, ?_, ?_, ?_, ?_⟩
  · simpa [t2, iteration_trace] using h1
  · simpa [t2, iteration_trace] using h2
  · simpa [t2, iteration_trace] using h3
  · simpa [t2, iteration_trace] using h4
  · simpa [t2, iteration_trace] using h5
  · simp only [t2, iteration_trace, h6]
  · simp only [t2, iteration_trace, h7]
  · simp only [t2, iteration_trace, h8, h7]
  · simpa [t2, iteration_trace] using h9

theorem range_filterMap_succ {β : Type} (f : Nat → Option β) (m : Nat) :
    (List.range (m + 1)).filterMap f = (List.range m).filterMap f ++ (f m).toList := by
  rw [List.range_succ, List.filterMap_append]
  cases h : f m <;> simp [List.filterMap_cons, h]

theorem trace_at_fields {KV R L : Type} [LinearOrder L] (P : Llama KV R L)
    (vocab : llama_vocab) (callback : Option Callback) (n_input : Nat)
    (ctx0 : llama_context KV R) (t0 : Trace) (hvocab : 1 ≤ vocab.llama_vocab_n_tokens)
    (m : Nat) :
    (trace_at P vocab callback n_input ctx0 t0 m).iterations = t0.iterations + m ∧
    (trace_at P vocab callback n_input ctx0 t0 m).appended =
      t0.appended ++ fragments_before P vocab n_input ctx0 m ∧
    (trace_at P vocab callback n_input ctx0 t0 m).response =
      t0.response ++ concat_all (fragments_before P vocab n_input ctx0 m) ∧
    (trace_at P vocab callback n_input ctx0 t0 m).on_token =
      t0.on_token ++
        (if exposes_onToken callback then fragments_before P vocab n_input ctx0 m else []) ∧
    (trace_at P vocab callback n_input ctx0 t0 m).nul_writes =
      t0.nul_writes ++ nul_writes_before P vocab n_input ctx0 m ∧
    (trace_at P vocab callback n_input ctx0 t0 m).decoded =
      t0.decoded ++ (List.range m).map (batch_at P vocab n_input ctx0) ∧
    (trace_at P vocab callback n_input ctx0 t0 m).batch_init =
      t0.batch_init ++ List.range' t0.batch_init.length m ∧
    (trace_at P vocab callback n_input ctx0 t0 m).batch_free =
      t0.batch_free ++ List.range' t0.batch_init.length m ∧
    (trace_at P vocab callback n_input ctx0 t0 m).sampling_fault = t0.sampling_fault := by
  induction m with
  | zero => simp [trace_at, fragments_before, nul_writes_before, concat_all]
  | succ m ih =>
    obtain ⟨i1, i2, i3, i4, i5, i6, i7, i8, i9⟩ := ih
    obtain ⟨h1, h2, h3, h4, h5, h6, h7, h8, h9⟩ :=
      iteration_trace_fields vocab callback
        (sampled_id P vocab (ctx_at P vocab n_input ctx0 m)) (n_input + m)
        (trace_at P vocab callback n_input ctx0 t0 m)
    have hfrag : fragments_before P vocab n_input ctx0 (m + 1) =
        fragments_before P vocab n_input ctx0 m ++
          (fragment_of vocab (sampled_id P vocab (ctx_at P vocab n_input ctx0 m))).toList := by
      rw [fragments_before, fragments_before, range_filterMap_succ,
        token_at_some P vocab n_input ctx0 hvocab m]
      rfl
    have hwrite : nul_writes_before P vocab n_input ctx0 (m + 1) =
        nul_writes_before P vocab n_input ctx0 m ++
          (nul_write_of vocab (sampled_id P vocab (ctx_at P vocab n_input ctx0 m))).toList := by
      rw [nul_writes_before, nul_writes_before, range_filterMap_succ,
        token_at_some P vocab n_input ctx0 hvocab m]
      rfl
    simp only [trace_at]
    refine ⟨?_, ?_, ?_, ?_, ?_, ?_, ?_, ?_, ?_⟩
    · rw [h1, i1]; omega
    · rw [h2, i2, hfrag, List.append_assoc]
    · rw [h3, i3, hfrag, concat_all_append, String.append_assoc]
    · rw [h4, i4, hfrag]
      by_cases hcb : exposes_onToken callback = true
      · simp [hcb]
      · simp [hcb]
    · rw [h5, i5, hwrite, List.append_assoc]
    · rw [h6, i6, List.range_succ, List.map_append, List.append_assoc]
      rfl
    · rw [h7, i7, List.range'_1_concat, List.append_assoc]
      simp [Nat.add_comm]
    · rw [h8, i8, i7, List.range'_1_concat, List.append_assoc]
      simp [Nat.add_comm]
    · rw [h9, i9]

/-- Over a vocabulary of at least one token the loop leaves the trace of some
number of whole iterations, with its own iteration count. -/
theorem generation_loop_trace_at {KV R L : Type} [LinearOrder L] (P : Llama KV R L)
    (vocab : llama_vocab) (callback : Option Callback) (n_input : Nat)
    (ctx0 : llama_context KV R) (t0 : Trace) (total : Nat)
    (hvocab : 1 ≤ vocab.llama_vocab_n_tokens) :
    ∃ n it, n ≤ total ∧
      (generation_loop P vocab callback n_input total 0 ctx0 t0).2 =
        { trace_at P vocab callback n_input ctx0 t0 n with iterations := it } := by
  obtain ⟨m, e, hloop, _, hs, hf, hc⟩ :=
    generation_loop_outcome P vocab callback n_input ctx0 t0 total hvocab
  rw [hloop]
  cases e with
  | stop_token => exact ⟨m, _, by have := (hs rfl).1; omega, rfl⟩
  | decode_failed => exact ⟨m + 1, _, by have := (hf rfl).1; omega, rfl⟩
  | cap => exact ⟨m, _, by have := hc rfl; omega, rfl⟩

/-! ## `generateResponse` past the prompt decode -/

theorem loop_entry_no_fault {KV R L : Type} [LinearOrder L] (P : Llama KV R L)
    (vocab : llama_vocab) (callback : Option Callback) (n_input : Nat)
    (ctx0 : llama_context KV R) (t0 : Trace) (total : Nat)
    (hvocab : 1 ≤ vocab.llama_vocab_n_tokens) (ht0 : t0.sampling_fault = false) :
    (generation_loop P vocab callback n_input total 0 ctx0 t0).2.sampling_fault = false := by
  obtain ⟨n, it, _, hT⟩ := generation_loop_trace_at P vocab callback n_input ctx0 t0 total hvocab
  rw [hT]
  simp only []
  rw [(trace_at_fields P vocab callback n_input ctx0 t0 hvocab n).2.2.2.2.2.2.2.2, ht0]

theorem generateResponse_enters_loop {KV R L : Type} [LinearOrder L] (P : Llama KV R L)
    (s : Session KV R) (g_ctx : llama_context KV R) (model : llama_model) (tokens : List Int)
    (callback : Option Callback)
    (hinit : s.g_initialized = true) (hctx : s.g_ctx = some g_ctx)
    (hmodel : s.g_model = some model) (hne : tokens ≠ [])
    (hnonneg : ∀ tok ∈ tokens, 0 ≤ tok) (hprompt : (prompt_decode P g_ctx tokens).1 = 0)
    (hvocab : 1 ≤ model.vocab.llama_vocab_n_tokens) :
    generateResponse P true s tokens callback =
      { exit := .response
        ret := (generation_loop P model.vocab callback tokens.length 100 0
          (prompt_decode P g_ctx tokens).2 (loop_entry_trace tokens)).2.response
        session := { s with g_ctx := some (generation_loop P model.vocab callback tokens.length
          100 0 (prompt_decode P g_ctx tokens).2 (loop_entry_trace tokens)).1 }
        trace := { (generation_loop P model.vocab callback tokens.length 100 0
            (prompt_decode P g_ctx tokens).2 (loop_entry_trace tokens)).2 with
          batch_free := (generation_loop P model.vocab callback tokens.length 100 0
            (prompt_decode P g_ctx tokens).2 (loop_entry_trace tokens)).2.batch_free ++ [0] } } := by
  have hempty : tokens.isEmpty = false := by
    cases tokens with
    | nil => exact absurd rfl hne
    | cons a l => rfl
  have hfault := loop_entry_no_fault P model.vocab callback tokens.length
    (prompt_decode P g_ctx tokens).2 (loop_entry_trace tokens) 100 hvocab rfl
  unfold prompt_decode at hprompt
  unfold generateResponse
  simp only [hinit, hctx, hmodel, hempty, llama_batch_init_token_allocated,
    prompt_batch_of_nonneg tokens hnonneg, hprompt]
  simp only [prompt_decode, loop_entry_trace, Trace.start] at hfault ⊢
  simp [hfault]

/-- Past a successful prompt decode, over a vocabulary without tokens, the
first sampling block yields no id: nothing is appended or notified, no further
forward pass is made, and the call is not followed to a `return`. -/
theorem generateResponse_sampling_fault {KV R L : Type} [LinearOrder L] (P : Llama KV R L)
    (s : Session KV R) (g_ctx : llama_context KV R) (model : llama_model) (tokens : List Int)
    (callback : Option Callback)
    (hinit : s.g_initialized = true) (hctx : s.g_ctx = some g_ctx)
    (hmodel : s.g_model = some model) (hne : tokens ≠ [])
    (hnonneg : ∀ tok ∈ tokens, 0 ≤ tok) (hprompt : (prompt_decode P g_ctx tokens).1 = 0)
    (hvocab : model.vocab.llama_vocab_n_tokens < 1) :
    (generateResponse P true s tokens callback).exit = .sampling_fault ∧
    (generateResponse P true s tokens callback).trace =
      { loop_entry_trace tokens with iterations := 1, sampling_fault := true } := by
  have hempty : tokens.isEmpty = false := by
    cases tokens with
    | nil => exact absurd rfl hne
    | cons a l => rfl
  have hloop := generation_loop_fault P model.vocab callback tokens.length 99 0
    (prompt_decode P g_ctx tokens).2 (loop_entry_trace tokens) hvocab
  unfold prompt_decode at hprompt
  unfold generateResponse
  simp only [hinit, hctx, hmodel, hempty, llama_batch_init_token_allocated,
    prompt_batch_of_nonneg tokens hnonneg, hprompt]
  simp only [prompt_decode, loop_entry_trace, Trace.start] at hloop ⊢
  simp [hloop]

/-- C1. On an initialized session, with a non-empty input of non-negative
token ids whose prompt decode succeeds: when the sampler selects the stop
token for the first time on iteration `k` (`1 ≤ k ≤ 100`) and the incremental
decodes of iterations `1 .. k-1` succeeded, the returned text is the
concatenation, in order, of the fragments of the tokens sampled on iterations
`1 .. k-1`; nothing is appended for the stop token, and the forward passes
issued are the prompt decode and those `k-1` incremental decodes. -/
theorem generateResponse_stop_token {KV R L : Type} [LinearOrder L] (P : Llama KV R L)
    (s : Session KV R) (g_ctx : llama_context KV R) (model : llama_model) (tokens : List Int)
    (callback : Option Callback) (k : Nat)
    (hinit : s.g_initialized = true) (hctx : s.g_ctx = some g_ctx)
    (hmodel : s.g_model = some model) (hne : tokens ≠ [])
    (hnonneg : ∀ tok ∈ tokens, 0 ≤ tok) (hprompt : (prompt_decode P g_ctx tokens).1 = 0)
    (hk : 1 ≤ k) (hk100 : k ≤ 100)
    (hbefore : ∀ i, i + 1 < k →
      token_at P model.vocab tokens.length (prompt_decode P g_ctx tokens).2 i
        ≠ some model.vocab.llama_vocab_eos ∧
      decode_code_at P model.vocab tokens.length (prompt_decode P g_ctx tokens).2 i = 0)
    (hstop : token_at P model.vocab tokens.length (prompt_decode P g_ctx tokens).2 (k - 1)
      = some model.vocab.llama_vocab_eos) :
    (generateResponse P true s tokens callback).exit = .response ∧
    (generateResponse P true s tokens callback).ret =
      concat_all (fragments_before P model.vocab tokens.length
        (prompt_decode P g_ctx tokens).2 (k - 1)) ∧
    (generateResponse P true s tokens callback).trace.appended =
      fragments_before P model.vocab tokens.length (prompt_decode P g_ctx tokens).2 (k - 1) ∧
    (generateResponse P true s tokens callback).trace.decoded =
      prompt_batch_built tokens ::
        (List.range (k - 1)).map
          (batch_at P model.vocab tokens.length (prompt_decode P g_ctx tokens).2) ∧
    (generateResponse P true s tokens callback).trace.iterations = k := by
  have hvocab : 1 ≤ model.vocab.llama_vocab_n_tokens := sample_greedy_some_vocab _ _ _ hstop
  have hnot : ∀ j, j < k - 1 →
      ¬ ends_at P model.vocab tokens.length (prompt_decode P g_ctx tokens).2 j := by
    intro j hj hends
    obtain ⟨h1, h2⟩ := hbefore j (by omega)
    rcases hends with h | h
    · exact h1 h
    · exact h h2
  have hloop := generation_loop_stop P model.vocab callback tokens.length
    (prompt_decode P g_ctx tokens).2 (loop_entry_trace tokens) 100 (k - 1) (by omega) hnot hstop
  obtain ⟨f1, f2, f3, _, _, f6, _, _, _⟩ := trace_at_fields P model.vocab callback
    tokens.length (prompt_decode P g_ctx tokens).2 (loop_entry_trace tokens) hvocab (k - 1)
  rw [generateResponse_enters_loop P s g_ctx model tokens callback hinit hctx hmodel hne
    hnonneg hprompt hvocab, hloop]
  simp only [loop_result]
  refine ⟨trivial, ?_, ?_, ?_, ?_⟩
  · rw [f3]; simp [loop_entry_trace, Trace.start]
  · rw [f2]; simp [loop_entry_trace, Trace.start]
  · rw [f6]; simp [loop_entry_trace, Trace.start]
  · rw [f1]; simp only [loop_entry_trace, Trace.start]; omega

theorem nul_writes_before_lt {KV R L : Type} [LinearOrder L] (P : Llama KV R L)
    (vocab : llama_vocab) (n_input : Nat) (ctx0 : llama_context KV R) (m : Nat)
    (hpiece : ∀ tok, (vocab.llama_token_to_piece tok text_capacity).1 < 256) :
    ∀ idx ∈ nul_writes_before P vocab n_input ctx0 m, idx < text_capacity := by
  intro idx hidx
  unfold nul_writes_before at hidx
  obtain ⟨i, _, hwrite⟩ := List.mem_filterMap.mp hidx
  cases htok : token_at P vocab n_input ctx0 i with
  | none => simp [htok] at hwrite
  | some tok =>
    simp only [htok, Option.some_bind] at hwrite
    unfold nul_write_of at hwrite
    have hlt := hpiece tok
    simp only [] at hwrite
    split at hwrite
    · simp only [Option.some.injEq] at hwrite
      subst hwrite
      simp only [text_capacity] at hlt ⊢
      omega
    · cases hwrite

/-- C2, amended. Whenever the prompt decode succeeds, over a vocabulary of
at least one token whose pieces are reported shorter than the 256-byte buffer,
whatever the forward pass and the logits return: the loop body is entered at
most 100 times, at most 100 fragments are appended and at most 100 passed to
the observer; the loop is left on the first iteration on which the stop token
is sampled or the incremental decode returns a non-zero code, and otherwise
after exactly 100 iterations; in each case the call returns through the final
`return` with the accumulated response, not with an error string, and every
terminator write was inside the buffer. -/
theorem generateResponse_loop_bounded {KV R L : Type} [LinearOrder L] (P : Llama KV R L)
    (s : Session KV R) (g_ctx : llama_context KV R) (model : llama_model) (tokens : List Int)
    (callback : Option Callback)
    (hinit : s.g_initialized = true) (hctx : s.g_ctx = some g_ctx)
    (hmodel : s.g_model = some model) (hne : tokens ≠ [])
    (hnonneg : ∀ tok ∈ tokens, 0 ≤ tok) (hprompt : (prompt_decode P g_ctx tokens).1 = 0)
    (hvocab : 1 ≤ model.vocab.llama_vocab_n_tokens)
    (hpiece : ∀ tok, (model.vocab.llama_token_to_piece tok text_capacity).1 < 256) :
    (generateResponse P true s tokens callback).exit = .response ∧
    (generateResponse P true s tokens callback).ret =
      (generateResponse P true s tokens callback).trace.response ∧
    (generateResponse P true s tokens callback).ret =
      concat_all (generateResponse P true s tokens callback).trace.appended ∧
    (generateResponse P true s tokens callback).trace.iterations ≤ 100 ∧
    (generateResponse P true s tokens callback).trace.appended.length ≤ 100 ∧
    (generateResponse P true s tokens callback).trace.on_token.length ≤ 100 ∧
    (∀ k, k < 100 →
      (∀ i, i < k →
        ¬ ends_at P model.vocab tokens.length (prompt_decode P g_ctx tokens).2 i) →
      ends_at P model.vocab tokens.length (prompt_decode P g_ctx tokens).2 k →
      (generateResponse P true s tokens callback).trace.iterations = k + 1) ∧
    ((∀ i, i < 100 →
        ¬ ends_at P model.vocab tokens.length (prompt_decode P g_ctx tokens).2 i) →
      (generateResponse P true s tokens callback).trace.iterations = 100) ∧
    (∀ idx ∈ (generateResponse P true s tokens callback).trace.nul_writes,
      idx < text_capacity) := by
  obtain ⟨m, e, hloop, hnot, hs, hf, hc⟩ := generation_loop_outcome P model.vocab callback
    tokens.length (prompt_decode P g_ctx tokens).2 (loop_entry_trace tokens) 100 hvocab
  have hfrag : ∀ n, (fragments_before P model.vocab tokens.length
      (prompt_decode P g_ctx tokens).2 n).length ≤ n := by
    intro n
    unfold fragments_before
    exact le_trans (List.length_filterMap_le _ _) (by simp)
  have hobs : ∀ n, (if exposes_onToken callback = true then
      fragments_before P model.vocab tokens.length (prompt_decode P g_ctx tokens).2 n
      else []).length ≤ n := by
    intro n
    by_cases hcb : exposes_onToken callback = true
    · simpa [hcb] using hfrag n
    · simp [hcb]
  have hwrites := nul_writes_before_lt P model.vocab tokens.length
    (prompt_decode P g_ctx tokens).2
  rw [generateResponse_enters_loop P s g_ctx model tokens callback hinit hctx hmodel hne
    hnonneg hprompt hvocab, hloop]
  cases e with
  | stop_token =>
    obtain ⟨hm, hstop⟩ := hs rfl
    obtain ⟨f1, f2, f3, f4, f5, _, _, _, _⟩ := trace_at_fields P model.vocab callback
      tokens.length (prompt_decode P g_ctx tokens).2 (loop_entry_trace tokens) hvocab m
    simp only [loop_result]
    refine ⟨trivial, trivial, ?_, ?_, ?_, ?_, ?_, ?_, ?_⟩
    · rw [f3, f2]; simp [loop_entry_trace, Trace.start]
    · rw [f1]; simp only [loop_entry_trace, Trace.start]; omega
    · rw [f2]; have := hfrag m; simp [loop_entry_trace, Trace.start]; omega
    · rw [f4]; have := hobs m; simp only [loop_entry_trace, Trace.start, List.nil_append]; omega
    · intro k _ hknot hkend
      have hkm : k = m := by
        rcases Nat.lt_trichotomy k m with h | h | h
        · exact absurd hkend (hnot k h)
        · exact h
        · exact absurd (Or.inl hstop) (hknot m h)
      rw [f1]; simp only [loop_entry_trace, Trace.start]; omega
    · intro hall
      exact absurd (Or.inl hstop) (hall m hm)
    · rw [f5]; simpa [loop_entry_trace, Trace.start] using hwrites m hpiece
  | decode_failed =>
    obtain ⟨hm, hgo, hfail⟩ := hf rfl
    obtain ⟨f1, f2, f3, f4, f5, _, _, _, _⟩ := trace_at_fields P model.vocab callback
      tokens.length (prompt_decode P g_ctx tokens).2 (loop_entry_trace tokens) hvocab (m + 1)
    simp only [loop_result]
    refine ⟨trivial, trivial, ?_, ?_, ?_, ?_, ?_, ?_, ?_⟩
    · rw [f3, f2]; simp [loop_entry_trace, Trace.start]
    · rw [f1]; simp only [loop_entry_trace, Trace.start]; omega
    · rw [f2]; have := hfrag (m + 1); simp [loop_entry_trace, Trace.start]; omega
    · rw [f4]; have := hobs (m + 1)
      simp only [loop_entry_trace, Trace.start, List.nil_append]; omega
    · intro k _ hknot hkend
      have hkm : k = m := by
        rcases Nat.lt_trichotomy k m with h | h | h
        · exact absurd hkend (hnot k h)
        · exact h
        · exact absurd (Or.inr hfail) (hknot m h)
      rw [f1]; simp only [loop_entry_trace, Trace.start]; omega
    · intro hall
      exact absurd (Or.inr hfail) (hall m hm)
    · rw [f5]; simpa [loop_entry_trace, Trace.start] using hwrites (m + 1) hpiece
  | cap =>
    have hm : m = 100 := hc rfl
    subst hm
    obtain ⟨f1, f2, f3, f4, f5, _, _, _, _⟩ := trace_at_fields P model.vocab callback
      tokens.length (prompt_decode P g_ctx tokens).2 (loop_entry_trace tokens) hvocab 100
    simp only [loop_result]
    refine ⟨trivial, trivial, ?_, ?_, ?_, ?_, ?_, ?_, ?_⟩
    · rw [f3, f2]; simp [loop_entry_trace, Trace.start]
    · rw [f1]; simp only [loop_entry_trace, Trace.start]; omega
    · rw [f2]; have := hfrag 100; simp [loop_entry_trace, Trace.start]; omega
    · rw [f4]; have := hobs 100
      simp only [loop_entry_trace, Trace.start, List.nil_append]; omega
    · intro k hk hknot hkend
      exact absurd hkend (hnot k hk)
    · intro _
      rw [f1]; simp only [loop_entry_trace, Trace.start]
    · rw [f5]; simpa [loop_entry_trace, Trace.start] using hwrites 100 hpiece

/-- Witness for C1: on the input `[5]` the demo library samples ids 1, 2 and
then the stop token on iteration 3. -/
theorem generateResponse_stop_token_witness :
    (generateResponse demo_llama true demo_session [5] (some { has_onToken := true })).exit
      = .response ∧
    (generateResponse demo_llama true demo_session [5] (some { has_onToken := true })).ret =
      concat_all (fragments_before demo_llama demo_vocab [5].length
        (prompt_decode demo_llama demo_ctx [5]).2 (3 - 1)) ∧
    (generateResponse demo_llama true demo_session [5]
        (some { has_onToken := true })).trace.appended =
      fragments_before demo_llama demo_vocab [5].length
        (prompt_decode demo_llama demo_ctx [5]).2 (3 - 1) ∧
    (generateResponse demo_llama true demo_session [5]
        (some { has_onToken := true })).trace.decoded =
      prompt_batch_built [5] ::
        (List.range (3 - 1)).map
          (batch_at demo_llama demo_vocab [5].length (prompt_decode demo_llama demo_ctx [5]).2) ∧
    (generateResponse demo_llama true demo_session [5]
        (some { has_onToken := true })).trace.iterations = 3 :=
  generateResponse_stop_token demo_llama demo_session demo_ctx { vocab := demo_vocab } [5]
    (some { has_onToken := true }) 3 rfl rfl rfl (by decide) (by decide) (by decide)
    (by decide) (by decide)
    (by
      intro i hi
      have hcases : i = 0 ∨ i = 1 := by omega
      rcases hcases with h | h <;> subst h <;> decide)
    (by decide)

theorem demo_vocab_pieces_short (tok : Int) :
    (demo_vocab.llama_token_to_piece tok text_capacity).1 < 256 := by
  unfold demo_vocab
  simp only []
  split
  · decide
  · split <;> decide

/-- Witness for C2 (amended): the demo request `[5]`, which returns `hi` after
three iterations with one terminator write, at index 2. -/
theorem generateResponse_loop_bounded_witness :
    (generateResponse demo_llama true demo_session [5] none).ret = "hi" ∧
    (generateResponse demo_llama true demo_session [5] none).trace.iterations = 3 ∧
    (generateResponse demo_llama true demo_session [5] none).trace.nul_writes = [2] ∧
    (generateResponse demo_llama true demo_session [5] none).exit = .response ∧
    (generateResponse demo_llama true demo_session [5] none).ret =
      concat_all (generateResponse demo_llama true demo_session [5] none).trace.appended ∧
    (∀ idx ∈ (generateResponse demo_llama true demo_session [5] none).trace.nul_writes,
      idx < text_capacity) :=
  ⟨by decide, by decide, by decide,
   (generateResponse_loop_bounded demo_llama demo_session demo_ctx { vocab := demo_vocab } [5]
      none rfl rfl rfl (by decide) (by decide) (by decide) (by decide)
      demo_vocab_pieces_short).1,
   (generateResponse_loop_bounded demo_llama demo_session demo_ctx { vocab := demo_vocab } [5]
      none rfl rfl rfl (by decide) (by decide) (by decide) (by decide)
      demo_vocab_pieces_short).2.2.1,
   (generateResponse_loop_bounded demo_llama demo_session demo_ctx { vocab := demo_vocab } [5]
      none rfl rfl rfl (by decide) (by decide) (by decide) (by decide)
      demo_vocab_pieces_short).2.2.2.2.2.2.2.2⟩

/-- C2 as worded fails where the vocabulary reports a negative size: the
prompt decode of the request `[5]` succeeds, the first sampling block yields no
id (line 263 throws), and the call does not return the accumulated response. -/
theorem loop_claim_fails_on_vocabulary_size :
    (prompt_decode demo_llama demo_ctx [5]).1 = 0 ∧
    no_vocab.llama_vocab_n_tokens = -1 ∧
    (generateResponse demo_llama true no_vocab_session [5] none).exit = .sampling_fault ∧
    ¬ ((generateResponse demo_llama true no_vocab_session [5] none).exit = .response) := by
  decide

/-! ## Early returns of `generateResponse` -/

/-- C6. On an initialized session, with an input in which some token id is
negative, at any index, and a prompt batch whose allocation succeeded: the
call returns exactly `Error: Invalid token`, no forward pass and no observer
call is made, and the one batch obtained, the prompt batch, has been released
when the call returns. -/
theorem generateResponse_invalid_token {KV R L : Type} [LinearOrder L] (P : Llama KV R L)
    (s : Session KV R) (g_ctx : llama_context KV R) (model : llama_model) (tokens : List Int)
    (callback : Option Callback)
    (hinit : s.g_initialized = true) (hctx : s.g_ctx = some g_ctx)
    (hmodel : s.g_model = some model) (hneg : ∃ tok ∈ tokens, tok < 0) :
    (generateResponse P true s tokens callback).ret = "Error: Invalid token" ∧
    (generateResponse P true s tokens callback).exit = .invalid_token ∧
    (generateResponse P true s tokens callback).trace.decoded = [] ∧
    (generateResponse P true s tokens callback).trace.on_token = [] ∧
    (generateResponse P true s tokens callback).trace.iterations = 0 ∧
    (generateResponse P true s tokens callback).trace.batch_init = [0] ∧
    (generateResponse P true s tokens callback).trace.batch_free = [0] := by
  have hempty : tokens.isEmpty = false := by
    cases tokens with
    | nil =>
      obtain ⟨tok, hmem, _⟩ := hneg
      simp at hmem
    | cons a l => rfl
  unfold generateResponse
  simp only [hinit, hctx, hmodel, hempty, llama_batch_init_token_allocated,
    prompt_batch_of_negative _ tokens hneg]
  simp [Trace.start]

/-- Witness for C6: the input `[5, -1, 2]` on the demo session. -/
theorem generateResponse_invalid_token_witness :
    (generateResponse demo_llama true demo_session [5, -1, 2] none).ret
      = "Error: Invalid token" ∧
    (generateResponse demo_llama true demo_session [5, -1, 2] none).exit = .invalid_token ∧
    (generateResponse demo_llama true demo_session [5, -1, 2] none).trace.decoded = [] ∧
    (generateResponse demo_llama true demo_session [5, -1, 2] none).trace.on_token = [] ∧
    (generateResponse demo_llama true demo_session [5, -1, 2] none).trace.iterations = 0 ∧
    (generateResponse demo_llama true demo_session [5, -1, 2] none).trace.batch_init = [0] ∧
    (generateResponse demo_llama true demo_session [5, -1, 2] none).trace.batch_free = [0] :=
  generateResponse_invalid_token demo_llama demo_session demo_ctx { vocab := demo_vocab }
    [5, -1, 2] none rfl rfl rfl ⟨-1, by decide, by decide⟩

/-- C7. On an initialized session, with a non-empty input of non-negative
token ids for which the forward pass returns a non-zero code on the prompt
batch: the call returns exactly `Error: Failed to process input`, the observer
is called zero times, the loop body is never entered, the only forward pass is
the prompt decode, and the prompt batch is released. -/
theorem generateResponse_prompt_decode_failed {KV R L : Type} [LinearOrder L]
    (P : Llama KV R L) (s : Session KV R) (g_ctx : llama_context KV R) (model : llama_model)
    (tokens : List Int) (callback : Option Callback)
    (hinit : s.g_initialized = true) (hctx : s.g_ctx = some g_ctx)
    (hmodel : s.g_model = some model) (hne : tokens ≠ [])
    (hnonneg : ∀ tok ∈ tokens, 0 ≤ tok) (hprompt : (prompt_decode P g_ctx tokens).1 ≠ 0) :
    (generateResponse P true s tokens callback).ret = "Error: Failed to process input" ∧
    (generateResponse P true s tokens callback).exit = .process_input_failed ∧
    (generateResponse P true s tokens callback).trace.on_token = [] ∧
    (generateResponse P true s tokens callback).trace.iterations = 0 ∧
    (generateResponse P true s tokens callback).trace.appended = [] ∧
    (generateResponse P true s tokens callback).trace.decoded = [prompt_batch_built tokens] ∧
    (generateResponse P true s tokens callback).trace.batch_init = [0] ∧
    (generateResponse P true s tokens callback).trace.batch_free = [0] := by
  have hempty : tokens.isEmpty = false := by
    cases tokens with
    | nil => exact absurd rfl hne
    | cons a l => rfl
  unfold prompt_decode at hprompt
  unfold generateResponse
  simp only [hinit, hctx, hmodel, hempty, llama_batch_init_token_allocated,
    prompt_batch_of_nonneg tokens hnonneg]
  simp [hprompt, Trace.start]

/-- Witness for C7: the forward pass fails on the prompt `[5, 6]`. -/
theorem generateResponse_prompt_decode_failed_witness :
    (generateResponse failing_llama true demo_session [5, 6]
        (some { has_onToken := true })).ret = "Error: Failed to process input" ∧
    (generateResponse failing_llama true demo_session [5, 6]
        (some { has_onToken := true })).exit = .process_input_failed ∧
    (generateResponse failing_llama true demo_session [5, 6]
        (some { has_onToken := true })).trace.on_token = [] ∧
    (generateResponse failing_llama true demo_session [5, 6]
        (some { has_onToken := true })).trace.iterations = 0 ∧
    (generateResponse failing_llama true demo_session [5, 6]
        (some { has_onToken := true })).trace.appended = [] ∧
    (generateResponse failing_llama true demo_session [5, 6]
        (some { has_onToken := true })).trace.decoded = [prompt_batch_built [5, 6]] ∧
    (generateResponse failing_llama true demo_session [5, 6]
        (some { has_onToken := true })).trace.batch_init = [0] ∧
    (generateResponse failing_llama true demo_session [5, 6]
        (some { has_onToken := true })).trace.batch_free = [0] :=
  generateResponse_prompt_decode_failed failing_llama demo_session demo_ctx
    { vocab := demo_vocab } [5, 6] (some { has_onToken := true }) rfl rfl rfl
    (by decide) (by decide) (by decide)

/-! ## The cache left by earlier requests -/

/-- C4. Two initialized sessions that hold the same model and whose contexts
differ only in the key/value cache yield, for every input, callback and
allocation outcome, the same return path, the same returned text, the same
observer notifications and the same trace of library calls. -/
theorem generateResponse_ignores_cache {KV R L : Type} [LinearOrder L] (P : Llama KV R L)
    (malloc_ok : Bool) (s1 s2 : Session KV R) (c1 c2 : llama_context KV R)
    (tokens : List Int) (callback : Option Callback)
    (hinit1 : s1.g_initialized = true) (hinit2 : s2.g_initialized = true)
    (hmodel : s1.g_model = s2.g_model)
    (hctx1 : s1.g_ctx = some c1) (hctx2 : s2.g_ctx = some c2) (hrest : c1.rest = c2.rest) :
    (generateResponse P malloc_ok s1 tokens callback).ret =
      (generateResponse P malloc_ok s2 tokens callback).ret ∧
    (generateResponse P malloc_ok s1 tokens callback).trace.on_token =
      (generateResponse P malloc_ok s2 tokens callback).trace.on_token ∧
    (generateResponse P malloc_ok s1 tokens callback).exit =
      (generateResponse P malloc_ok s2 tokens callback).exit ∧
    (generateResponse P malloc_ok s1 tokens callback).trace =
      (generateResponse P malloc_ok s2 tokens callback).trace := by
  have hclear : llama_kv_self_clear P c1 = llama_kv_self_clear P c2 := by
    cases c1
    cases c2
    simp only at hrest
    simp [llama_kv_self_clear, hrest]
  obtain ⟨i1, x1, m1⟩ := s1
  obtain ⟨i2, x2, m2⟩ := s2
  simp only at hinit1 hinit2 hmodel hctx1 hctx2
  subst hinit1 hinit2 hmodel hctx1 hctx2
  cases m1 with
  | none => simp [generateResponse]
  | some model =>
    simp only [generateResponse, Bool.not_true, Option.isNone_some, Bool.or_self,
      Bool.false_eq_true, if_false]
    rw [hclear]
    exact ⟨rfl, rfl, rfl, rfl⟩

/-- Witness for C4: the demo session with seven cached tokens and with two. -/
theorem generateResponse_ignores_cache_witness :
    (generateResponse demo_llama true demo_session [5] (some { has_onToken := true })).ret =
      (generateResponse demo_llama true demo_session_other [5]
        (some { has_onToken := true })).ret ∧
    (generateResponse demo_llama true demo_session [5]
        (some { has_onToken := true })).trace.on_token =
      (generateResponse demo_llama true demo_session_other [5]
        (some { has_onToken := true })).trace.on_token ∧
    (generateResponse demo_llama true demo_session [5] (some { has_onToken := true })).exit =
      (generateResponse demo_llama true demo_session_other [5]
        (some { has_onToken := true })).exit ∧
    (generateResponse demo_llama true demo_session [5] (some { has_onToken := true })).trace =
      (generateResponse demo_llama true demo_session_other [5]
        (some { has_onToken := true })).trace :=
  generateResponse_ignores_cache demo_llama true demo_session demo_session_other demo_ctx
    { kv := 2, rest := 0 } [5] (some { has_onToken := true }) rfl rfl rfl rfl rfl rfl

/-! ## Session lifecycle -/

theorem initModel_consistent {KV R : Type} (load : Option llama_model)
    (init_from_model : llama_model → Option (llama_context KV R)) (s : Session KV R)
    (h : session_consistent s) : session_consistent (initModel load init_from_model s).2 := by
  obtain ⟨flag, ctx, model⟩ := s
  unfold session_consistent isInitialized at h ⊢
  unfold initModel
  cases flag with
  | true => simpa using h
  | false =>
    have hctx : ctx = none := by
      cases ctx with
      | none => rfl
      | some c =>
        cases model with
        | none => simp at h
        | some m => simp at h
    subst hctx
    cases load with
    | none => simp
    | some m =>
      cases hmk : init_from_model m with
      | none => simp [hmk]
      | some c => simp [hmk]

theorem cleanup_consistent {KV R : Type} (s : Session KV R) :
    session_consistent (cleanup s) := by
  obtain ⟨flag, ctx, model⟩ := s
  unfold session_consistent isInitialized cleanup
  cases ctx <;> cases model <;> simp

theorem foldl_consistent {KV R : Type} (calls : List (SessionCall KV R)) :
    ∀ s : Session KV R, session_consistent s →
      session_consistent (calls.foldl session_step s) := by
  induction calls with
  | nil => intro s h; exact h
  | cons c rest ih =>
    intro s h
    simp only [List.foldl_cons]
    apply ih
    cases c with
    | initModel load init_from_model => exact initModel_consistent load init_from_model s h
    | cleanup => exact cleanup_consistent s

theorem foldl_not_loaded {KV R : Type} (calls : List (SessionCall KV R)) :
    ∀ s : Session KV R, s.g_initialized = false → (∀ c ∈ calls, loads_model c = false) →
      (calls.foldl session_step s).g_initialized = false := by
  induction calls with
  | nil => intro s h _; exact h
  | cons c rest ih =>
    intro s h hall
    simp only [List.foldl_cons]
    apply ih
    · have hc := hall c (List.mem_cons_self _ _)
      cases c with
      | cleanup => simp [session_step, cleanup]
      | initModel load init_from_model =>
        simp only [session_step, initModel, h]
        cases load with
        | none => simp
        | some m =>
          cases hmk : init_from_model m with
          | none => simp [hmk]
          | some c2 => simp [loads_model, hmk] at hc
    · intro c2 hc2
      exact hall c2 (List.mem_cons_of_mem _ hc2)

theorem initModel_true_flag {KV R : Type} (load : Option llama_model)
    (init_from_model : llama_model → Option (llama_context KV R)) (s : Session KV R)
    (h : (initModel load init_from_model s).1 = true) :
    (initModel load init_from_model s).2.g_initialized = true := by
  unfold initModel at h ⊢
  by_cases hflag : s.g_initialized = true
  · simp [hflag]
  · simp only [hflag] at h ⊢
    cases load with
    | none => simp at h
    | some m =>
      cases hmk : init_from_model m with
      | none => simp [hmk] at h
      | some c => simp [hmk]

/-- The flag after `initModel` is the result the call returns. -/
theorem initModel_flag_eq_result {KV R : Type} (load : Option llama_model)
    (init_from_model : llama_model → Option (llama_context KV R)) (s : Session KV R) :
    (initModel load init_from_model s).2.g_initialized
      = (initModel load init_from_model s).1 := by
  unfold initModel
  by_cases hflag : s.g_initialized = true
  · simp [hflag]
  · simp only [hflag]
    cases load with
    | none => simp [hflag]
    | some m =>
      cases hmk : init_from_model m with
      | none => simp [hmk, hflag]
      | some c => simp [hmk]

/-- `initModel` returns true exactly when the session was initialized already
or the model load and the context creation both succeed. -/
theorem initModel_result {KV R : Type} (load : Option llama_model)
    (init_from_model : llama_model → Option (llama_context KV R)) (s : Session KV R) :
    (initModel load init_from_model s).1
      = (s.g_initialized || (load.bind init_from_model).isSome) := by
  unfold initModel
  by_cases hflag : s.g_initialized = true
  · simp [hflag]
  · simp only [hflag]
    cases load with
    | none => simp
    | some m =>
      cases hmk : init_from_model m with
      | none => simp [hmk]
      | some c => simp [hmk]

/-- C8. In every session state reached from the initial state by a finite
sequence of `initModel` calls (model load and context creation each succeeding
or failing) and `cleanup` calls: the model is present exactly when the context
is, and `isInitialized` is true exactly when both are present.  It is false in
the initial state and as long as no `initModel` had both its load and its
context creation succeed, and false after `cleanup`.  After an `initModel`
whose load and context creation both succeed it is true, with model and
context present.  In general the flag after `initModel` is the value the call
returns, which is true exactly when the session was initialized already or
load and context creation both succeed. -/
theorem session_invariant {KV R : Type} (calls : List (SessionCall KV R)) :
    ((session_after calls).g_model.isSome ↔ (session_after calls).g_ctx.isSome) ∧
    (isInitialized (session_after calls) = true ↔
      (session_after calls).g_model.isSome ∧ (session_after calls).g_ctx.isSome) ∧
    isInitialized (session_after ([] : List (SessionCall KV R))) = false ∧
    ((∀ c ∈ calls, loads_model c = false) → isInitialized (session_after calls) = false) ∧
    isInitialized (session_after (calls ++ [.cleanup])) = false ∧
    (∀ load init_from_model,
      (initModel load init_from_model (session_after calls)).1 = true →
      isInitialized (session_after (calls ++ [.initModel load init_from_model])) = true) ∧
    (∀ load init_from_model,
      loads_model (SessionCall.initModel load init_from_model) = true →
      (initModel load init_from_model (session_after calls)).1 = true ∧
      isInitialized (session_after (calls ++ [.initModel load init_from_model])) = true ∧
      (session_after (calls ++ [.initModel load init_from_model])).g_model.isSome = true ∧
      (session_after (calls ++ [.initModel load init_from_model])).g_ctx.isSome = true) ∧
    (∀ load init_from_model,
      isInitialized (session_after (calls ++ [.initModel load init_from_model]))
        = (initModel load init_from_model (session_after calls)).1) ∧
    (∀ load init_from_model,
      (initModel load init_from_model (session_after calls)).1
        = (isInitialized (session_after calls)
            || loads_model (SessionCall.initModel load init_from_model))) := by
  have hinitial : session_consistent (Session.initial : Session KV R) := by
    simp [session_consistent, isInitialized, Session.initial]
  have hcons := foldl_consistent calls Session.initial hinitial
  have hafter : ∀ load init_from_model,
      session_after (calls ++ [SessionCall.initModel load init_from_model])
        = (initModel load init_from_model (session_after calls)).2 := by
    intro load init_from_model
    simp [session_after, List.foldl_append, session_step]
  refine ⟨hcons.1, hcons.2, rfl, ?_, ?_, ?_, ?_, ?_, ?_⟩
  · intro hall
    exact foldl_not_loaded calls Session.initial rfl hall
  · simp [session_after, List.foldl_append, session_step, cleanup, isInitialized]
  · intro load init_from_model h
    rw [hafter]
    exact initModel_true_flag load init_from_model _ h
  · intro load init_from_model hloads
    have hres : (initModel load init_from_model (session_after calls)).1 = true := by
      rw [initModel_result]
      simp only [loads_model] at hloads
      simp [hloads]
    have hflag : isInitialized
        (session_after (calls ++ [SessionCall.initModel load init_from_model])) = true := by
      rw [hafter]
      exact initModel_true_flag load init_from_model _ hres
    have hcons2 := foldl_consistent (calls ++ [SessionCall.initModel load init_from_model])
      Session.initial hinitial
    have hboth := hcons2.2.mp hflag
    exact ⟨hres, hflag, hboth.1, hboth.2⟩
  · intro load init_from_model
    rw [hafter]
    exact initModel_flag_eq_result load init_from_model _
  · intro load init_from_model
    rw [initModel_result]
    rfl

/-- Witness for C8: from the initial state, an `initModel` whose load and
context creation succeed sets the flag, a following `cleanup` clears it, and
an `initModel` whose load fails leaves it clear. -/
theorem session_invariant_witness :
    isInitialized (session_after
      (([] : List (SessionCall Nat Nat)) ++
        [.initModel (some { vocab := demo_vocab }) (fun _ => some demo_ctx)])) = true ∧
    isInitialized (session_after
      ([SessionCall.initModel (some { vocab := demo_vocab }) (fun _ => some demo_ctx)] ++
        [.cleanup])) = false ∧
    isInitialized (session_after
      [SessionCall.initModel none (fun _ => some demo_ctx), .cleanup,
        .initModel (some { vocab := demo_vocab }) (fun _ => none)]) = false :=
  ⟨((session_invariant ([] : List (SessionCall Nat Nat))).2.2.2.2.2.2.1
      (some { vocab := demo_vocab }) (fun _ => some demo_ctx) rfl).2.1,
   (session_invariant
      [SessionCall.initModel (some { vocab := demo_vocab }) (fun _ => some demo_ctx)]).2.2.2.2.1,
   (session_invariant
      [SessionCall.initModel none (fun _ => some demo_ctx), .cleanup,
        .initModel (some { vocab := demo_vocab }) (fun _ => none)]).2.2.2.1
      (by
        intro c hc
        simp only [List.mem_cons, List.mem_singleton, List.not_mem_nil, or_false] at hc
        rcases hc with h | h | h <;> subst h <;> rfl)⟩

/-! ## Observer notifications -/

theorem fragment_of_ne_empty (vocab : llama_vocab) (h : pieces_start_nonNUL vocab)
    (tok : Int) (f : String) (hf : fragment_of vocab tok = some f) : f ≠ "" := by
  unfold fragment_of at hf
  by_cases hlen : (vocab.llama_token_to_piece tok text_capacity).1 > 0
  · simp only [hlen, if_true, Option.some.injEq] at hf
    obtain ⟨c, rest, hpiece, hc⟩ := h tok hlen
    obtain ⟨n, hn⟩ : ∃ n : Nat,
        (vocab.llama_token_to_piece tok text_capacity).1.toNat = n + 1 :=
      ⟨(vocab.llama_token_to_piece tok text_capacity).1.toNat - 1, by omega⟩
    rw [hpiece, hn] at hf
    subst hf
    intro hcontra
    have hdata := congrArg String.data hcontra
    simp [cstr, terminate, List.takeWhile_cons, hc] at hdata
  · simp [hlen] at hf

theorem fragments_before_ne_empty {KV R L : Type} [LinearOrder L] (P : Llama KV R L)
    (vocab : llama_vocab) (n_input : Nat) (ctx0 : llama_context KV R) (n : Nat)
    (h : pieces_start_nonNUL vocab) :
    ∀ f ∈ fragments_before P vocab n_input ctx0 n, f ≠ "" := by
  intro f hf
  unfold fragments_before at hf
  obtain ⟨i, _, hfi⟩ := List.mem_filterMap.mp hf
  cases htok : token_at P vocab n_input ctx0 i with
  | none => simp [htok] at hfi
  | some tok =>
    simp only [htok, Option.some_bind] at hfi
    exact fragment_of_ne_empty vocab h tok f hfi

/-- When no piece begins with NUL, the fragment appended for a token is its
text, and is there exactly when that text is not empty. -/
theorem fragment_of_eq_text (vocab : llama_vocab) (h : pieces_start_nonNUL vocab)
    (tok : Int) :
    fragment_of vocab tok =
      if token_text vocab tok != "" then some (token_text vocab tok) else none := by
  by_cases hpos : (vocab.llama_token_to_piece tok text_capacity).1 > 0
  · have hfrag : fragment_of vocab tok = some (token_text vocab tok) := by
      have hneg : ¬ (vocab.llama_token_to_piece tok text_capacity).1 < 0 := by omega
      simp [fragment_of, token_text, hpos, hneg]
    have hne := fragment_of_ne_empty vocab h tok _ hfrag
    rw [hfrag]
    simp [hne]
  · have hfrag : fragment_of vocab tok = none := by simp [fragment_of, hpos]
    have htext : token_text vocab tok = "" := by
      unfold token_text
      by_cases hneg : (vocab.llama_token_to_piece tok text_capacity).1 < 0
      · simp [hneg]
      · have hzero : (vocab.llama_token_to_piece tok text_capacity).1 = 0 := by omega
        rw [if_neg hneg, hzero]
        simp [terminate, cstr]
    rw [hfrag, htext]
    rfl

theorem filterMap_fragment_eq_texts (vocab : llama_vocab) (h : pieces_start_nonNUL vocab)
    (ids : List Int) :
    ids.filterMap (fragment_of vocab) =
      (ids.map (token_text vocab)).filter (fun f => f != "") := by
  induction ids with
  | nil => rfl
  | cons tok rest ih =>
    rw [List.filterMap_cons, fragment_of_eq_text vocab h tok, List.map_cons, List.filter_cons]
    by_cases htext : (token_text vocab tok != "") = true
    · simp only [htext, if_true, ih]
    · simp only [htext, if_false, ih]
      rfl

theorem fragments_before_eq_texts {KV R L : Type} [LinearOrder L] (P : Llama KV R L)
    (vocab : llama_vocab) (n_input : Nat) (ctx0 : llama_context KV R) (m : Nat)
    (h : pieces_start_nonNUL vocab) :
    fragments_before P vocab n_input ctx0 m =
      (((List.range m).filterMap (token_at P vocab n_input ctx0)).map
        (token_text vocab)).filter (fun f => f != "") := by
  rw [← filterMap_fragment_eq_texts vocab h, List.filterMap_filterMap]
  rfl

/-- The ways a call of `generateResponse` ends: with nothing appended or
notified (an early return, or a sampling block without an id), or through the
final return after the generation loop over a vocabulary of at least one
token. -/
theorem generateResponse_paths {KV R L : Type} [LinearOrder L] (P : Llama KV R L)
    (malloc_ok : Bool) (s : Session KV R) (tokens : List Int) (callback : Option Callback) :
    ((generateResponse P malloc_ok s tokens callback).exit ≠ .response ∧
      (generateResponse P malloc_ok s tokens callback).trace.on_token = [] ∧
      (generateResponse P malloc_ok s tokens callback).trace.appended = [] ∧
      (generateResponse P malloc_ok s tokens callback).trace.nul_writes = [] ∧
      (((generateResponse P malloc_ok s tokens callback).trace.batch_init = [] ∧
          (generateResponse P malloc_ok s tokens callback).trace.batch_free = []) ∨
        ((generateResponse P malloc_ok s tokens callback).trace.batch_init = [0] ∧
          (generateResponse P malloc_ok s tokens callback).trace.batch_free = [0]) ∨
        ((malloc_ok = false ∨
            (generateResponse P malloc_ok s tokens callback).exit = .sampling_fault) ∧
          (generateResponse P malloc_ok s tokens callback).trace.batch_init = [0] ∧
          (generateResponse P malloc_ok s tokens callback).trace.batch_free = []))) ∨
    (∃ (g_ctx : llama_context KV R) (model : llama_model) (batch : llama_batch),
      s.g_model = some model ∧ malloc_ok = true ∧ 1 ≤ model.vocab.llama_vocab_n_tokens ∧
      (generateResponse P malloc_ok s tokens callback).exit = .response ∧
      (generateResponse P malloc_ok s tokens callback).ret =
        (generation_loop P model.vocab callback tokens.length 100 0
          (P.llama_decode (llama_kv_self_clear P g_ctx) batch).2
          { Trace.start with batch_init := [0], decoded := [batch] }).2.response ∧
      (generateResponse P malloc_ok s tokens callback).trace =
        { (generation_loop P model.vocab callback tokens.length 100 0
            (P.llama_decode (llama_kv_self_clear P g_ctx) batch).2
            { Trace.start with batch_init := [0], decoded := [batch] }).2 with
          batch_free := (generation_loop P model.vocab callback tokens.length 100 0
            (P.llama_decode (llama_kv_self_clear P g_ctx) batch).2
            { Trace.start with batch_init := [0], decoded := [batch] }).2.batch_free ++ [0] }) := by
  cases hguard : s.g_initialized with
  | false =>
    left
    simp [generateResponse, hguard, Trace.start]
  | true =>
  cases hctx : s.g_ctx with
  | none =>
    left
    simp [generateResponse, hctx, Trace.start]
  | some g_ctx =>
    cases hmodel : s.g_model with
    | none =>
      left
      simp [generateResponse, hctx, hmodel, Trace.start]
    | some model =>
      by_cases hempty : tokens.isEmpty = true
      · left
        simp [generateResponse, hguard, hctx, hmodel, hempty, llama_batch_init_token_allocated,
          Trace.start]
      cases malloc_ok with
      | false =>
        left
        simp [generateResponse, hguard, hctx, hmodel, hempty, llama_batch_init_token_allocated,
          Trace.start]
      | true =>
        cases hbatch : prompt_batch (llama_batch_init true tokens.length) tokens with
        | none =>
          left
          simp [generateResponse, hguard, hctx, hmodel, hempty, hbatch,
            llama_batch_init_token_allocated, Trace.start]
        | some batch =>
          by_cases hdecode : (P.llama_decode (llama_kv_self_clear P g_ctx) batch).1 = 0
          · by_cases hvocab : 1 ≤ model.vocab.llama_vocab_n_tokens
            · right
              have hfault := loop_entry_no_fault P model.vocab callback tokens.length
                (P.llama_decode (llama_kv_self_clear P g_ctx) batch).2
                { Trace.start with batch_init := [0], decoded := [batch] } 100 hvocab rfl
              simp only [Trace.start] at hfault
              refine ⟨g_ctx, model, batch, rfl, rfl, hvocab, ?_⟩
              simp [generateResponse, hguard, hctx, hmodel, hempty, hbatch, hdecode,
                llama_batch_init_token_allocated, Trace.start, hfault]
            · left
              have hloop := generation_loop_fault P model.vocab callback tokens.length 99 0
                (P.llama_decode (llama_kv_self_clear P g_ctx) batch).2
                { Trace.start with batch_init := [0], decoded := [batch] } (by omega)
              simp only [Trace.start] at hloop
              simp [generateResponse, hguard, hctx, hmodel, hempty, hbatch, hdecode,
                llama_batch_init_token_allocated, Trace.start, hloop]
          · left
            simp [generateResponse, hguard, hctx, hmodel, hempty, hbatch, hdecode,
              llama_batch_init_token_allocated, Trace.start]

/-- C5, amended. With a non-null observer that has `onToken`, over a
vocabulary none of whose pieces begins with a NUL character, for every call:
the strings passed to the observer are exactly the non-empty fragments appended
to the response (which are all the strings appended), one notification per
fragment and in the same order; no notified string is empty; when the call
leaves through the final `return`, the returned text is the concatenation of
the notified strings, and on every other exit the observer was not called; and past a successful prompt decode
the notified strings are exactly the non-empty texts of the tokens sampled
before the loop was left (a forward pass was issued for each of them), in
generation order. -/
theorem generateResponse_observer {KV R L : Type} [LinearOrder L] (P : Llama KV R L)
    (malloc_ok : Bool) (s : Session KV R) (tokens : List Int)
    (hpieces : ∀ model, s.g_model = some model → pieces_start_nonNUL model.vocab) :
    (generateResponse P malloc_ok s tokens (some { has_onToken := true })).trace.on_token =
      (generateResponse P malloc_ok s tokens
        (some { has_onToken := true })).trace.appended.filter (fun f => f != "") ∧
    (generateResponse P malloc_ok s tokens (some { has_onToken := true })).trace.on_token =
      (generateResponse P malloc_ok s tokens (some { has_onToken := true })).trace.appended ∧
    (∀ f ∈ (generateResponse P malloc_ok s tokens
        (some { has_onToken := true })).trace.on_token, f ≠ "") ∧
    ((generateResponse P malloc_ok s tokens (some { has_onToken := true })).exit = .response →
      (generateResponse P malloc_ok s tokens (some { has_onToken := true })).ret =
        concat_all
          (generateResponse P malloc_ok s tokens (some { has_onToken := true })).trace.on_token) ∧
    ((generateResponse P malloc_ok s tokens (some { has_onToken := true })).exit ≠ .response →
      (generateResponse P malloc_ok s tokens (some { has_onToken := true })).trace.on_token
        = []) ∧
    (∀ (g_ctx : llama_context KV R) (model : llama_model),
      malloc_ok = true → s.g_initialized = true → s.g_ctx = some g_ctx →
      s.g_model = some model → tokens ≠ [] → (∀ tok ∈ tokens, 0 ≤ tok) →
      (prompt_decode P g_ctx tokens).1 = 0 →
      (generateResponse P malloc_ok s tokens (some { has_onToken := true })).trace.on_token =
        (((List.range
            ((generateResponse P malloc_ok s tokens
              (some { has_onToken := true })).trace.decoded.length - 1)).filterMap
            (token_at P model.vocab tokens.length (prompt_decode P g_ctx tokens).2)).map
          (token_text model.vocab)).filter (fun f => f != "")) := by
  have hsame : (generateResponse P malloc_ok s tokens
      (some { has_onToken := true })).trace.on_token =
      (generateResponse P malloc_ok s tokens (some { has_onToken := true })).trace.appended := by
    rcases generateResponse_paths P malloc_ok s tokens (some { has_onToken := true }) with
      ⟨_, hobs, happ, _, _⟩ | ⟨g_ctx, model, batch, hmodel, _, hvocab, _, _, htrace⟩
    · rw [hobs, happ]
    · obtain ⟨n, it, _, hT⟩ := generation_loop_trace_at P model.vocab
        (some { has_onToken := true }) tokens.length
        (P.llama_decode (llama_kv_self_clear P g_ctx) batch).2
        { Trace.start with batch_init := [0], decoded := [batch] } 100 hvocab
      obtain ⟨_, f2, _, f4, _, _, _, _, _⟩ := trace_at_fields P model.vocab
        (some { has_onToken := true }) tokens.length
        (P.llama_decode (llama_kv_self_clear P g_ctx) batch).2
        { Trace.start with batch_init := [0], decoded := [batch] } hvocab n
      rw [htrace, hT]
      simp only [f2, f4]
      simp [Trace.start, exposes_onToken]
  have hnonempty : ∀ f ∈ (generateResponse P malloc_ok s tokens
      (some { has_onToken := true })).trace.on_token, f ≠ "" := by
    rcases generateResponse_paths P malloc_ok s tokens (some { has_onToken := true }) with
      ⟨_, hobs, _, _, _⟩ | ⟨g_ctx, model, batch, hmodel, _, hvocab, _, _, htrace⟩
    · intro f hf
      rw [hobs] at hf
      simp at hf
    · obtain ⟨n, it, _, hT⟩ := generation_loop_trace_at P model.vocab
        (some { has_onToken := true }) tokens.length
        (P.llama_decode (llama_kv_self_clear P g_ctx) batch).2
        { Trace.start with batch_init := [0], decoded := [batch] } 100 hvocab
      obtain ⟨_, _, _, f4, _, _, _, _, _⟩ := trace_at_fields P model.vocab
        (some { has_onToken := true }) tokens.length
        (P.llama_decode (llama_kv_self_clear P g_ctx) batch).2
        { Trace.start with batch_init := [0], decoded := [batch] } hvocab n
      rw [htrace, hT]
      simp only [f4]
      simp only [Trace.start, List.nil_append, exposes_onToken, if_true]
      exact fragments_before_ne_empty P model.vocab tokens.length _ n (hpieces model hmodel)
  refine ⟨?_, hsame, hnonempty, ?_, ?_, ?_⟩
  · have hfilter : (generateResponse P malloc_ok s tokens
        (some { has_onToken := true })).trace.appended.filter (fun f => f != "") =
        (generateResponse P malloc_ok s tokens (some { has_onToken := true })).trace.appended := by
      rw [List.filter_eq_self]
      intro f hf
      rw [← hsame] at hf
      simpa using hnonempty f hf
    rw [hfilter]
    exact hsame
  · rcases generateResponse_paths P malloc_ok s tokens (some { has_onToken := true }) with
      ⟨hexit, _, _, _, _⟩ | ⟨g_ctx, model, batch, hmodel, _, hvocab, _, hret, htrace⟩
    · intro h
      exact absurd h hexit
    · intro _
      obtain ⟨n, it, _, hT⟩ := generation_loop_trace_at P model.vocab
        (some { has_onToken := true }) tokens.length
        (P.llama_decode (llama_kv_self_clear P g_ctx) batch).2
        { Trace.start with batch_init := [0], decoded := [batch] } 100 hvocab
      obtain ⟨_, _, f3, f4, _, _, _, _, _⟩ := trace_at_fields P model.vocab
        (some { has_onToken := true }) tokens.length
        (P.llama_decode (llama_kv_self_clear P g_ctx) batch).2
        { Trace.start with batch_init := [0], decoded := [batch] } hvocab n
      rw [hret, htrace, hT]
      simp only [f3, f4]
      simp [Trace.start, exposes_onToken]
  · rcases generateResponse_paths P malloc_ok s tokens (some { has_onToken := true }) with
      ⟨_, hobs, _, _, _⟩ | ⟨_, _, _, _, _, _, hexit, _, _⟩
    · intro _
      exact hobs
    · intro h
      exact absurd hexit h
  · intro g_ctx model hmalloc hinit hctx hmodel hne hnonneg hprompt
    subst hmalloc
    by_cases hvocab : 1 ≤ model.vocab.llama_vocab_n_tokens
    · obtain ⟨n, it, _, hT⟩ := generation_loop_trace_at P model.vocab
        (some { has_onToken := true }) tokens.length (prompt_decode P g_ctx tokens).2
        (loop_entry_trace tokens) 100 hvocab
      obtain ⟨_, _, _, f4, _, f6, _, _, _⟩ := trace_at_fields P model.vocab
        (some { has_onToken := true }) tokens.length (prompt_decode P g_ctx tokens).2
        (loop_entry_trace tokens) hvocab n
      rw [generateResponse_enters_loop P s g_ctx model tokens _ hinit hctx hmodel hne hnonneg
        hprompt hvocab, hT]
      simp only [f4, f6]
      simp only [loop_entry_trace, Trace.start, List.nil_append, exposes_onToken, if_true,
        List.length_append, List.length_singleton, List.length_map, List.length_range,
        Nat.add_sub_cancel_left]
      exact fragments_before_eq_texts P model.vocab tokens.length _ n (hpieces model hmodel)
    · obtain ⟨_, htrace⟩ := generateResponse_sampling_fault P s g_ctx model tokens
        (some { has_onToken := true }) hinit hctx hmodel hne hnonneg hprompt (by omega)
      rw [htrace]
      simp [loop_entry_trace, Trace.start]

theorem plain_vocab_pieces : pieces_start_nonNUL plain_vocab := by
  intro tok hpos
  unfold plain_vocab at hpos ⊢
  simp only [] at hpos ⊢
  by_cases h0 : tok = 0
  · simp only [h0, if_true]
    exact ⟨'a', [], rfl, by decide⟩
  · by_cases h1 : tok = 1
    · simp only [h1, if_true]
      exact ⟨'h', ['i'], rfl, by decide⟩
    · simp [h0, h1] at hpos

/-- Witness for C5 (amended): over a vocabulary without NUL pieces the demo
request `[5, 5, 5, 5]` samples the ids 0 and 1, whose texts `a` and `hi` are
notified in that order, and returns `ahi`. -/
theorem generateResponse_observer_witness :
    (generateResponse demo_llama true plain_session [5, 5, 5, 5]
        (some { has_onToken := true })).trace.on_token = ["a", "hi"] ∧
    (generateResponse demo_llama true plain_session [5, 5, 5, 5]
        (some { has_onToken := true })).ret = "ahi" ∧
    (∀ f ∈ (generateResponse demo_llama true plain_session [5, 5, 5, 5]
        (some { has_onToken := true })).trace.on_token, f ≠ "") ∧
    (generateResponse demo_llama true plain_session [5, 5, 5, 5]
        (some { has_onToken := true })).trace.on_token =
      (((List.range
          ((generateResponse demo_llama true plain_session [5, 5, 5, 5]
            (some { has_onToken := true })).trace.decoded.length - 1)).filterMap
          (token_at demo_llama plain_vocab [5, 5, 5, 5].length
            (prompt_decode demo_llama demo_ctx [5, 5, 5, 5]).2)).map
        (token_text plain_vocab)).filter (fun f => f != "") :=
  ⟨by decide, by decide,
   (generateResponse_observer demo_llama true plain_session [5, 5, 5, 5]
      (fun model h => by
        have hm : model = { vocab := plain_vocab } := by
          simp only [plain_session, Option.some.injEq] at h
          exact h.symm
        subst hm
        exact plain_vocab_pieces)).2.2.1,
   (generateResponse_observer demo_llama true plain_session [5, 5, 5, 5]
      (fun model h => by
        have hm : model = { vocab := plain_vocab } := by
          simp only [plain_session, Option.some.injEq] at h
          exact h.symm
        subst hm
        exact plain_vocab_pieces)).2.2.2.2.2 demo_ctx { vocab := plain_vocab } rfl rfl rfl rfl
      (by decide) (by decide) (by decide)⟩

/-- C5 as worded fails on two calls of the demo session: with an empty input
the call returns `Error: No input tokens` while nothing was notified, and with
the input `[5, 5, 5, 5]` the first sampled token is the NUL byte, whose
fragment is empty and is passed to the observer. -/
theorem observer_claim_fails :
    ¬ observer_claim
      (generateResponse demo_llama true demo_session [] (some { has_onToken := true })) ∧
    ¬ observer_claim
      (generateResponse demo_llama true demo_session [5, 5, 5, 5]
        (some { has_onToken := true })) := by
  constructor
  · intro h
    exact absurd h.2.2 (by decide)
  · intro h
    exact absurd (h.2.1 "" (by decide)) (by decide)

/-! ## Batch allocation and release -/

/-- C9 at its failing input. On the demo session, with an input of one
token and a prompt batch whose `token` array could not be obtained, the call
returns `Error: Batch initialization failed` after one `llama_batch_init` and no
`llama_batch_free`: the batch obtained is not released. -/
theorem generateResponse_batch_check_leaks :
    (generateResponse demo_llama false demo_session [5] none).exit = .batch_init_failed ∧
    (generateResponse demo_llama false demo_session [5] none).ret
      = "Error: Batch initialization failed" ∧
    (generateResponse demo_llama false demo_session [5] none).trace.batch_init = [0] ∧
    (generateResponse demo_llama false demo_session [5] none).trace.batch_free = [] ∧
    (generateResponse demo_llama false demo_session [5] none).trace.batch_free.count 0 ≠ 1 := by
  decide

/-- On every return other than the failed allocation check, each batch
obtained is released exactly once and nothing else is released. -/
theorem generateResponse_releases_batches {KV R L : Type} [LinearOrder L] (P : Llama KV R L)
    (s : Session KV R) (tokens : List Int) (callback : Option Callback)
    (hreturns : (generateResponse P true s tokens callback).exit ≠ .sampling_fault) :
    (∀ h ∈ (generateResponse P true s tokens callback).trace.batch_init,
      (generateResponse P true s tokens callback).trace.batch_free.count h = 1) ∧
    (∀ h ∈ (generateResponse P true s tokens callback).trace.batch_free,
      h ∈ (generateResponse P true s tokens callback).trace.batch_init) := by
  rcases generateResponse_paths P true s tokens callback with
    ⟨_, _, _, _, hb⟩ | ⟨g_ctx, model, batch, _, _, hvocab, _, _, htrace⟩
  · rcases hb with ⟨h1, h2⟩ | ⟨h1, h2⟩ | ⟨hfalse | hfault, _, _⟩
    · rw [h1, h2]; simp
    · rw [h1, h2]; simp
    · cases hfalse
    · exact absurd hfault hreturns
  · obtain ⟨n, it, _, hT⟩ := generation_loop_trace_at P model.vocab callback tokens.length
      (P.llama_decode (llama_kv_self_clear P g_ctx) batch).2
      { Trace.start with batch_init := [0], decoded := [batch] } 100 hvocab
    obtain ⟨_, _, _, _, _, _, f7, f8, _⟩ := trace_at_fields P model.vocab callback
      tokens.length (P.llama_decode (llama_kv_self_clear P g_ctx) batch).2
      { Trace.start with batch_init := [0], decoded := [batch] } hvocab n
    rw [htrace, hT]
    simp only [f7, f8]
    simp only [Trace.start, List.nil_append, List.length_singleton, List.singleton_append]
    have hperm : (List.range' 1 n ++ [0]).Perm (0 :: List.range' 1 n) :=
      List.perm_append_singleton 0 _
    have hnodup : (0 :: List.range' 1 n).Nodup := by
      rw [List.nodup_cons]
      refine ⟨?_, List.nodup_range' 1 n⟩
      intro hmem
      have := (List.mem_range'_1.mp hmem).1
      omega
    constructor
    · intro h hh
      rw [hperm.count_eq]
      exact List.count_eq_one_of_mem hnodup hh
    · intro h hh
      exact hperm.mem_iff.mp hh

/-! ## Terminator writes into the fragment buffer -/

/-- C10 at its failing input. For a token whose piece has exactly 256 bytes
the library reports 256, within what it may report for a buffer of capacity
256; `detokenize` then writes the terminator at index 256, and so does the
generation loop when it samples that token: the index is not below 256. -/
theorem terminator_write_at_capacity :
    (full_vocab.llama_token_to_piece 0 text_capacity).1 = 256 ∧
    (detokenize full_session 0).nul_writes = [256] ∧
    (generateResponse demo_llama true full_session [5, 5, 5, 5] none).trace.nul_writes
      = [256] ∧
    ¬ (256 < text_capacity) := by
  decide

/-- When the library reports a length below the capacity, the terminator
write of `detokenize` is inside the buffer. -/
theorem detokenize_write_in_bounds {KV R : Type} (s : Session KV R) (token : Int)
    (h : ∀ model, s.g_model = some model →
      (model.vocab.llama_token_to_piece token text_capacity).1 < 256) :
    ∀ idx ∈ (detokenize s token).nul_writes, idx < text_capacity := by
  intro idx hidx
  unfold detokenize at hidx
  split at hidx
  · simp at hidx
  · split at hidx
    · simp at hidx
    · rename_i model hmodel
      have hlt := h model hmodel
      simp only [] at hidx
      split at hidx
      · simp at hidx
      · simp only [List.mem_singleton] at hidx
        subst hidx
        simp only [text_capacity] at hlt ⊢
        omega

/-- When the library reports lengths below the capacity, every terminator
write of `generateResponse` is inside the buffer. -/
theorem generateResponse_writes_in_bounds {KV R L : Type} [LinearOrder L] (P : Llama KV R L)
    (malloc_ok : Bool) (s : Session KV R) (tokens : List Int) (callback : Option Callback)
    (h : ∀ model tok, s.g_model = some model →
      (model.vocab.llama_token_to_piece tok text_capacity).1 < 256) :
    ∀ idx ∈ (generateResponse P malloc_ok s tokens callback).trace.nul_writes,
      idx < text_capacity := by
  intro idx hidx
  rcases generateResponse_paths P malloc_ok s tokens callback with
    ⟨_, _, _, hw, _⟩ | ⟨g_ctx, model, batch, hmodel, _, hvocab, _, _, htrace⟩
  · rw [hw] at hidx
    simp at hidx
  · obtain ⟨n, it, _, hT⟩ := generation_loop_trace_at P model.vocab callback tokens.length
      (P.llama_decode (llama_kv_self_clear P g_ctx) batch).2
      { Trace.start with batch_init := [0], decoded := [batch] } 100 hvocab
    obtain ⟨_, _, _, _, f5, _, _, _, _⟩ := trace_at_fields P model.vocab callback
      tokens.length (P.llama_decode (llama_kv_self_clear P g_ctx) batch).2
      { Trace.start with batch_init := [0], decoded := [batch] } hvocab n
    rw [htrace, hT] at hidx
    simp only [f5] at hidx
    simp only [Trace.start, List.nil_append] at hidx
    exact nul_writes_before_lt P model.vocab tokens.length _ n (fun tok => h model tok hmodel)
      idx hidx

end LlamaJni
